import Mathlib

/-!
Shallow embedding of the GuardDuty invite accepter and the S3 bucket object resources.

Source files embedded here:
* `aws/resource_aws_guardduty_invite_accepter.go`
* `aws/resource_aws_s3_bucket_object.go`

Conventions.
* A Go `string` is a Lean `String`; a `*string` is an `Option String` and
  `aws.StringValue` maps `nil` to `""`.
* `schema.ResourceData` is a record of the resource's fields plus `id`.  A string
  field is "set" in the sense of `d.GetOk` exactly when it is not the zero value `""`;
  `d.Set(k, p)` with a nil pointer stores the zero value.
* Every remote call an operation issues is appended to a trace (`Run.calls`), the
  answers of the remote side are supplied by an environment record.
* A nil-pointer dereference is the outcome `Outcome.panicked`.
-/

namespace AwsBackup

/-! ## Go library primitives -/

/-- `aws.StringValue`: the pointed-to string, or `""` for a nil pointer. -/
def awsStringValue : Option String → String
  | some s => s
  | none => ""

/-- `strings.Index(s, sep)` for a one-byte separator: offset of the first occurrence. -/
def stringsIndex (sep : Char) : List Char → Option Nat
  | [] => none
  | c :: cs => if c = sep then some 0 else (stringsIndex sep cs).map (· + 1)

/-- `strings.Count(s, sep)` for a one-byte separator. -/
def stringsCount (sep : Char) (s : List Char) : Nat :=
  s.count sep

/-- The loop of Go's `genSplit` (`sepSave = 0`): at most `n` cuts at the first
occurrence of `sep`, the remainder is the last part. -/
def genSplit (sep : Char) : Nat → List Char → List (List Char)
  | 0, s => [s]
  | n + 1, s =>
    match stringsIndex sep s with
    | none => [s]
    | some m => s.take m :: genSplit sep n (s.drop (m + 1))

/-- `strings.Split(s, sep)` for a one-byte separator: `n = Count(s, sep) + 1` parts. -/
def stringsSplit (s : String) (sep : Char) : List String :=
  (genSplit sep (stringsCount sep s.data) s.data).map String.mk

/-- `strings.Contains(s, substr)`. -/
def stringsContains (s substr : String) : Bool :=
  s.data.tails.any (fun t => substr.data.isPrefixOf t)

/-- `strings.Trim(s, cutset)` for a one-character cutset: drops every leading and
every trailing occurrence of `c`. -/
def stringsTrim (s : String) (c : Char) : String :=
  String.mk ((s.data.dropWhile (· == c)).reverse.dropWhile (· == c)).reverse

/-! ## Errors -/

/-- An `awserr.Error`; `statusCode` is present when the value also is an
`awserr.RequestFailure`. -/
structure AwsError where
  code : String
  message : String
  statusCode : Option Nat
  deriving DecidableEq, Repr

/-- A Go `error` value handed back by a client call. -/
inductive GoError where
  | aws (e : AwsError)
  | other (msg : String)
  deriving DecidableEq, Repr

/-- Modelled from the spec: `isAWSErr` (helper of the provider, not among the source
files): the error is an `awserr.Error` with the given code whose message contains the
given text ("the API reports the detector not owned by the caller"). -/
def isAWSErr (err : GoError) (code message : String) : Bool :=
  match err with
  | .aws e => e.code == code && stringsContains e.message message
  | .other _ => false

/-- `err.(awserr.RequestFailure)` succeeds and `StatusCode() == 404`. -/
def isRequestFailure404 (err : GoError) : Bool :=
  match err with
  | .aws e => e.statusCode == some 404
  | .other _ => false

/-- The errors the two resources return, one constructor per `return` site. -/
inductive Failure where
  /-- `decodeGuardDutyInviteAccepterID`: "must be of the form ..." -/
  | invalidId (id : String)
  /-- "error listing GuardDuty Invitations" -/
  | listing (e : GoError)
  /-- "unable to find pending GuardDuty Invitation" -/
  | notFound (detectorID masterID : String)
  /-- the wait of `resource.Retry` ran out before any attempt finished -/
  | timeout
  /-- "error accepting GuardDuty Invitation" -/
  | accepting (invitationID : String) (e : GoError)
  /-- "error reading GuardDuty Master Account" -/
  | readingMaster (id : String) (e : GoError)
  /-- "error disassociating ... from GuardDuty Master Account" -/
  | disassociating (id : String) (e : GoError)
  /-- a client error returned unchanged (`return err`) -/
  | remote (e : GoError)
  /-- "Error expanding homedir in source" -/
  | expandingHomedir (source : String) (e : String)
  /-- "Error opening S3 bucket object source" -/
  | openingSource (source : String) (e : String)
  /-- "error decoding content_base64" -/
  | decodingBase64 (e : String)
  /-- "Must specify "source", "content", or "content_base64" field" -/
  | mustSpecify
  /-- "This region does not allow for tags on S3 objects" -/
  | tagsNotAllowed
  /-- "Error putting object in S3 bucket" -/
  | putting (bucket : String) (e : GoError)
  /-- "Failed to describe default S3 KMS key (alias/aws/s3)" -/
  | describingKey (e : GoError)
  /-- "Failed to get object tags" -/
  | gettingTags (bucket key : String) (e : GoError)
  /-- "Failed listing S3 object versions" -/
  | listingVersions (e : GoError)
  /-- "Error deleting S3 object version of" -/
  | deletingVersion (key : String) (versionId : Option String) (e : GoError)
  /-- "Error deleting S3 bucket object" -/
  | deletingObject (e : GoError) (bucket key : String)
  /-- the framework's "conflicts with" validation error -/
  | conflictsWith (field other : String)
  deriving DecidableEq, Repr

/-- How an operation ends. -/
inductive Outcome where
  | ok
  | fail (e : Failure)
  | panicked
  deriving DecidableEq, Repr

/-! ## Remote calls -/

/-- `s3.PutObjectInput` as built by `resourceAwsS3BucketObjectPut`. -/
structure PutObjectInput where
  Bucket : String
  Key : String
  ACL : String
  Body : List UInt8
  StorageClass : Option String := none
  CacheControl : Option String := none
  ContentType : Option String := none
  ContentEncoding : Option String := none
  ContentLanguage : Option String := none
  ContentDisposition : Option String := none
  ServerSideEncryption : Option String := none
  SSEKMSKeyId : Option String := none
  Tagging : Option String := none
  WebsiteRedirectLocation : Option String := none
  deriving DecidableEq, Repr

/-- A request sent to the remote API. -/
inductive Call where
  /-- one page request of `ListInvitationsPages`, with its 0-based page number -/
  | listInvitations (page : Nat)
  | acceptInvitation (DetectorId InvitationId MasterId : String)
  | getMasterAccount (DetectorId : String)
  | disassociateFromMasterAccount (DetectorId : String)
  | putObject (input : PutObjectInput)
  | headObject (Bucket Key : String)
  | describeKey (KeyId : String)
  | getObjectTagging (Bucket Key : String)
  | listObjectVersions (Bucket Pfx : String)
  | deleteObject (Bucket Key : String) (VersionId : Option String)
  deriving DecidableEq, Repr

/-- The result of running one lifecycle callback: the resource data afterwards, the
remote calls issued in order, and the outcome. -/
structure Run (δ : Type) where
  d : δ
  calls : List Call
  result : Outcome
  deriving Repr

/-! ## GuardDuty invite accepter -/

/-- `guardduty.Invitation` (the fields the resource reads). -/
structure Invitation where
  AccountId : Option String
  InvitationId : Option String
  deriving DecidableEq, Repr

/-- `guardduty.Master` (the field the resource reads). -/
structure Master where
  AccountId : Option String
  deriving DecidableEq, Repr

/-- The resource data of `aws_guardduty_invite_accepter`. -/
structure InviteAccepterData where
  id : String
  detector_id : String
  master_id : String
  deriving DecidableEq, Repr

/-- What the remote side answers to the invite accepter.  `listings` holds, for each
attempt that `resource.Retry` makes before the create timeout, the pages that the
listing returns (a page request either fails or yields its invitations). -/
structure GuardDutyEnv where
  listings : List (List (Except GoError (List Invitation)))
  acceptInvitation : String → String → String → Option GoError
  getMasterAccount : String → Except GoError (Option Master)
  disassociateFromMasterAccount : String → Option GoError

/-- `decodeGuardDutyInviteAccepterID`: `len(parts) != 2` is an error, otherwise
`parts[0], parts[1]`. -/
def decodeGuardDutyInviteAccepterID (id : String) : Except Failure (String × String) :=
  match stringsSplit id ':' with
  | [p0, p1] => .ok (p0, p1)
  | _ => .error (.invalidId id)

/-- The `for _, invitation := range page.Invitations` loop of the page callback:
the invitation id of the first invitation whose account id is `masterID`. -/
def scanInvitations (masterID : String) : List Invitation → Option String
  | [] => none
  | invitation :: rest =>
    if awsStringValue invitation.AccountId = masterID then
      some (awsStringValue invitation.InvitationId)
    else scanInvitations masterID rest

/-- The page callback passed to `ListInvitationsPages`: updates the captured
`invitationID` and tells whether to continue. -/
def pageCallback (masterID : String) (invitationID : String) (page : List Invitation)
    (lastPage : Bool) : String × Bool :=
  match scanInvitations masterID page with
  | some found => (found, false)
  | none => (invitationID, !lastPage)

/-- `conn.ListInvitationsPages`: requests the pages in order, hands each to the
callback with `lastPage`, stops when the callback returns `false` or a request
fails.  Returns the captured `invitationID`, the page requests made and the error. -/
def listInvitationsPages (masterID : String) :
    String → Nat → List (Except GoError (List Invitation)) →
      String × List Call × Option GoError
  | invitationID, _, [] => (invitationID, [], none)
  | invitationID, i, .error e :: _ => (invitationID, [Call.listInvitations i], some e)
  | invitationID, i, .ok page :: rest =>
    match pageCallback masterID invitationID page rest.isEmpty with
    | (invitationID', false) => (invitationID', [Call.listInvitations i], none)
    | (invitationID', true) =>
      match listInvitationsPages masterID invitationID' (i + 1) rest with
      | (r, cs, err) => (r, Call.listInvitations i :: cs, err)

/-- What a `resource.RetryFunc` returns besides `nil`. -/
inductive RetryError where
  | retryable (e : Failure)
  | nonRetryable (e : Failure)
  deriving DecidableEq, Repr

/-- The function passed to `resource.Retry` in create, run on one listing. -/
def retryFunc (detectorID masterID : String) (invitationID : String)
    (listing : List (Except GoError (List Invitation))) :
    String × List Call × Option RetryError :=
  match listInvitationsPages masterID invitationID 0 listing with
  | (invitationID', cs, some err) => (invitationID', cs, some (.nonRetryable (.listing err)))
  | (invitationID', cs, none) =>
    if invitationID' = "" then
      (invitationID', cs, some (.retryable (.notFound detectorID masterID)))
    else (invitationID', cs, none)

/-- Modelled from the spec: `resource.Retry` (framework, not among the source files).
The function is run once per attempt that fits in the timeout; `nil` ends the wait
with success, a non-retryable error aborts immediately, a retryable error leads to
the next attempt; when the budget expires the last retryable error is returned
(a timeout error if no attempt finished). -/
def resourceRetry (f : String → List (Except GoError (List Invitation)) →
      String × List Call × Option RetryError) :
    String → Option Failure → List (List (Except GoError (List Invitation))) →
      String × List Call × Option Failure
  | s, last, [] => (s, [], some (last.getD .timeout))
  | s, _, a :: rest =>
    match f s a with
    | (s', cs, none) => (s', cs, none)
    | (s', cs, some (.nonRetryable e)) => (s', cs, some e)
    | (s', cs, some (.retryable e)) =>
      match resourceRetry f s' (some e) rest with
      | (s'', cs', r) => (s'', cs ++ cs', r)

/-- `guardduty.ErrCodeBadRequestException`. -/
def ErrCodeBadRequestException : String := "BadRequestException"

/-- The message text that read looks for in a `BadRequestException`. -/
def notOwnedMessage : String :=
  "The request is rejected because the input detectorId is not owned by the current account."

/-- `resourceAwsGuardDutyInviteAccepterRead`. -/
def resourceAwsGuardDutyInviteAccepterRead (env : GuardDutyEnv) (d : InviteAccepterData) :
    Run InviteAccepterData :=
  match decodeGuardDutyInviteAccepterID d.id with
  | .error err => ⟨d, [], .fail err⟩
  | .ok (detectorID, _) =>
    match env.getMasterAccount detectorID with
    | .error err =>
      if isAWSErr err ErrCodeBadRequestException notOwnedMessage then
        ⟨{ d with id := "" }, [Call.getMasterAccount detectorID], .ok⟩
      else
        ⟨d, [Call.getMasterAccount detectorID], .fail (.readingMaster d.id err)⟩
    | .ok none =>
      ⟨{ d with id := "" }, [Call.getMasterAccount detectorID], .ok⟩
    | .ok (some master) =>
      ⟨{ d with detector_id := detectorID, master_id := awsStringValue master.AccountId },
        [Call.getMasterAccount detectorID], .ok⟩

/-- The identity create sets: `fmt.Sprintf("%s:%s", detectorID, masterID)`. -/
def inviteAccepterID (detectorID masterID : String) : String :=
  detectorID ++ ":" ++ masterID

/-- `resourceAwsGuardDutyInviteAccepterCreate`. -/
def resourceAwsGuardDutyInviteAccepterCreate (env : GuardDutyEnv) (d : InviteAccepterData) :
    Run InviteAccepterData :=
  let detectorID := d.detector_id
  let masterID := d.master_id
  match resourceRetry (retryFunc detectorID masterID) "" none env.listings with
  | (_, cs, some err) => ⟨d, cs, .fail err⟩
  | (invitationID, cs, none) =>
    match env.acceptInvitation detectorID invitationID masterID with
    | some err =>
      ⟨d, cs ++ [Call.acceptInvitation detectorID invitationID masterID],
        .fail (.accepting invitationID err)⟩
    | none =>
      let r := resourceAwsGuardDutyInviteAccepterRead env
        { d with id := inviteAccepterID detectorID masterID }
      ⟨r.d, cs ++ Call.acceptInvitation detectorID invitationID masterID :: r.calls, r.result⟩

/-- `resourceAwsGuardDutyInviteAccepterDelete`. -/
def resourceAwsGuardDutyInviteAccepterDelete (env : GuardDutyEnv) (d : InviteAccepterData) :
    Run InviteAccepterData :=
  match decodeGuardDutyInviteAccepterID d.id with
  | .error err => ⟨d, [], .fail err⟩
  | .ok (detectorID, _) =>
    match env.disassociateFromMasterAccount detectorID with
    | some err =>
      ⟨d, [Call.disassociateFromMasterAccount detectorID], .fail (.disassociating d.id err)⟩
    | none => ⟨d, [Call.disassociateFromMasterAccount detectorID], .ok⟩

/-! ## S3 bucket object -/

/-- `[]byte(content)`: the UTF-8 bytes of the string. -/
def stringBytes (s : String) : List UInt8 :=
  s.data.flatMap String.utf8EncodeChar

/-- `s3.PutObjectOutput` (the fields the resource reads). -/
structure PutObjectOutput where
  ETag : Option String
  VersionId : Option String
  deriving DecidableEq, Repr

/-- `s3.HeadObjectOutput` (the fields the resource reads). -/
structure HeadObjectOutput where
  CacheControl : Option String := none
  ContentDisposition : Option String := none
  ContentEncoding : Option String := none
  ContentLanguage : Option String := none
  ContentType : Option String := none
  VersionId : Option String := none
  ServerSideEncryption : Option String := none
  WebsiteRedirectLocation : Option String := none
  SSEKMSKeyId : Option String := none
  ETag : Option String := none
  StorageClass : Option String := none
  deriving DecidableEq, Repr

/-- `kms.KeyMetadata` (the field the resource reads). -/
structure KeyMetadata where
  Arn : Option String
  deriving DecidableEq, Repr

/-- `kms.DescribeKeyOutput`. -/
structure DescribeKeyOutput where
  KeyMetadata : Option KeyMetadata
  deriving DecidableEq, Repr

/-- `s3.Tag`. -/
structure Tag where
  Key : Option String
  Value : Option String
  deriving DecidableEq, Repr

/-- `s3.ObjectVersion` (the fields the resource reads). -/
structure ObjectVersion where
  Key : Option String
  VersionId : Option String
  deriving DecidableEq, Repr

/-- The resource data of `aws_s3_bucket_object`: one entry per schema attribute, and
the identity. -/
structure BucketObjectData where
  id : String := ""
  bucket : String
  acl : String := "private"
  cache_control : String := ""
  content_disposition : String := ""
  content_encoding : String := ""
  content_language : String := ""
  content_type : String := ""
  key : String
  source : String := ""
  content : String := ""
  content_base64 : String := ""
  storage_class : String := ""
  server_side_encryption : String := ""
  kms_key_id : String := ""
  etag : String := ""
  version_id : String := ""
  tags : List (String × String) := []
  website_redirect : String := ""
  deriving DecidableEq, Repr

/-- What surrounds the object adapter: the local collaborators (`homedir.Expand`,
`os.Open`, `base64.StdEncoding.DecodeString`, `url.Values.Encode`, `tagsToMapS3`,
`IsChinaCloud`) and the answers of the remote side.  `deleteObject` also receives the
number of `DeleteObject` calls already issued by the running operation, so that a
later call may be answered differently from an earlier one with the same input. -/
structure S3Env where
  isChinaCloud : Bool
  homedirExpand : String → Except String String
  osOpen : String → Except String (List UInt8)
  base64Decode : String → Except String (List UInt8)
  urlValuesEncode : List (String × String) → String
  tagsToMapS3 : List Tag → List (String × String)
  putObject : PutObjectInput → Except GoError PutObjectOutput
  headObject : String → String → Except GoError HeadObjectOutput
  describeKey : String → Except GoError DescribeKeyOutput
  getObjectTagging : String → String → Except GoError (List Tag)
  listObjectVersions : String → String → Except GoError (List ObjectVersion)
  deleteObject : Nat → String → String → Option String → Option GoError

/-- `v, ok := d.GetOk(k)` on a string attribute followed by `aws.String(v)`: present
exactly when the value is not the zero value. -/
def getOk (v : String) : Option String :=
  if v = "" then none else some v

/-- The body selection at the head of `resourceAwsS3BucketObjectPut`
(`if ... else if ... else if ... else`). -/
def putBody (env : S3Env) (d : BucketObjectData) : Except Failure (List UInt8) :=
  if d.source ≠ "" then
    match env.homedirExpand d.source with
    | .error err => .error (.expandingHomedir d.source err)
    | .ok path =>
      match env.osOpen path with
      | .error err => .error (.openingSource d.source err)
      | .ok file => .ok file
  else if d.content ≠ "" then
    .ok (stringBytes d.content)
  else if d.content_base64 ≠ "" then
    match env.base64Decode d.content_base64 with
    | .error err => .error (.decodingBase64 err)
    | .ok contentRaw => .ok contentRaw
  else .error .mustSpecify

/-- The `s3.PutObjectInput` that `resourceAwsS3BucketObjectPut` builds once the body
is resolved. -/
def putInput (env : S3Env) (d : BucketObjectData) (body : List UInt8) : PutObjectInput where
  Bucket := d.bucket
  Key := d.key
  ACL := d.acl
  Body := body
  StorageClass := getOk d.storage_class
  CacheControl := getOk d.cache_control
  ContentType := getOk d.content_type
  ContentEncoding := getOk d.content_encoding
  ContentLanguage := getOk d.content_language
  ContentDisposition := getOk d.content_disposition
  ServerSideEncryption :=
    if d.kms_key_id ≠ "" then some "aws:kms" else getOk d.server_side_encryption
  SSEKMSKeyId := getOk d.kms_key_id
  Tagging := if d.tags ≠ [] then some (env.urlValuesEncode d.tags) else none
  WebsiteRedirectLocation := getOk d.website_redirect

/-- The part of `resourceAwsS3BucketObjectRead` after the KMS key rule: etag, storage
class and tags. `calls` are the remote calls issued so far. -/
def readAfterKms (env : S3Env) (d : BucketObjectData) (resp : HeadObjectOutput)
    (calls : List Call) : Run BucketObjectData :=
  match resp.ETag with
  | none => ⟨d, calls, .panicked⟩
  | some etag =>
    let d1 := { d with etag := stringsTrim etag '"' }
    let d2 := { d1 with storage_class := "STANDARD" }
    let d3 := match resp.StorageClass with
      | some sc => { d2 with storage_class := sc }
      | none => d2
    if !env.isChinaCloud then
      match env.getObjectTagging d3.bucket d3.key with
      | .error err =>
        ⟨d3, calls ++ [Call.getObjectTagging d3.bucket d3.key],
          .fail (.gettingTags d3.bucket d3.key err)⟩
      | .ok tagSet =>
        ⟨{ d3 with tags := env.tagsToMapS3 tagSet },
          calls ++ [Call.getObjectTagging d3.bucket d3.key], .ok⟩
    else ⟨d3, calls, .ok⟩

/-- `resourceAwsS3BucketObjectRead`. -/
def resourceAwsS3BucketObjectRead (env : S3Env) (d : BucketObjectData) :
    Run BucketObjectData :=
  let bucket := d.bucket
  let key := d.key
  match env.headObject bucket key with
  | .error err =>
    if isRequestFailure404 err then
      ⟨{ d with id := "" }, [Call.headObject bucket key], .ok⟩
    else ⟨d, [Call.headObject bucket key], .fail (.remote err)⟩
  | .ok resp =>
    let d1 := { d with
      cache_control := awsStringValue resp.CacheControl
      content_disposition := awsStringValue resp.ContentDisposition
      content_encoding := awsStringValue resp.ContentEncoding
      content_language := awsStringValue resp.ContentLanguage
      content_type := awsStringValue resp.ContentType
      version_id := awsStringValue resp.VersionId
      server_side_encryption := awsStringValue resp.ServerSideEncryption
      website_redirect := awsStringValue resp.WebsiteRedirectLocation }
    match resp.SSEKMSKeyId with
    | none => readAfterKms env d1 resp [Call.headObject bucket key]
    | some reported =>
      match env.describeKey "alias/aws/s3" with
      | .error err =>
        ⟨d1, [Call.headObject bucket key, Call.describeKey "alias/aws/s3"],
          .fail (.describingKey err)⟩
      | .ok kmsresp =>
        match kmsresp.KeyMetadata.bind (·.Arn) with
        | none => ⟨d1, [Call.headObject bucket key, Call.describeKey "alias/aws/s3"], .panicked⟩
        | some arn =>
          let d2 := if reported ≠ arn then { d1 with kms_key_id := reported } else d1
          readAfterKms env d2 resp
            [Call.headObject bucket key, Call.describeKey "alias/aws/s3"]

/-- `resourceAwsS3BucketObjectPut`. -/
def resourceAwsS3BucketObjectPut (env : S3Env) (d : BucketObjectData) :
    Run BucketObjectData :=
  match putBody env d with
  | .error err => ⟨d, [], .fail err⟩
  | .ok body =>
    let bucket := d.bucket
    let key := d.key
    let input := putInput env d body
    if d.tags ≠ [] ∧ env.isChinaCloud then ⟨d, [], .fail .tagsNotAllowed⟩
    else
      match env.putObject input with
      | .error err => ⟨d, [Call.putObject input], .fail (.putting bucket err)⟩
      | .ok resp =>
        match resp.ETag with
        | none => ⟨d, [Call.putObject input], .panicked⟩
        | some etag =>
          let d1 := { d with etag := stringsTrim etag '"' }
          let d2 := { d1 with version_id := awsStringValue resp.VersionId }
          let d3 := { d2 with id := key }
          let r := resourceAwsS3BucketObjectRead env d3
          ⟨r.d, Call.putObject input :: r.calls, r.result⟩

/-- The `for _, v := range out.Versions` loop of `resourceAwsS3BucketObjectDelete`;
`i` counts the `DeleteObject` calls issued before. -/
def deleteVersions (env : S3Env) (bucket key : String) :
    Nat → List ObjectVersion → List Call × Outcome
  | _, [] => ([], .ok)
  | i, v :: rest =>
    match env.deleteObject i bucket key v.VersionId with
    | some err =>
      ([Call.deleteObject bucket key v.VersionId], .fail (.deletingVersion key v.VersionId err))
    | none =>
      match deleteVersions env bucket key (i + 1) rest with
      | (cs, r) => (Call.deleteObject bucket key v.VersionId :: cs, r)

/-- `resourceAwsS3BucketObjectDelete`. -/
def resourceAwsS3BucketObjectDelete (env : S3Env) (d : BucketObjectData) :
    Run BucketObjectData :=
  let bucket := d.bucket
  let key := d.key
  if d.version_id ≠ "" then
    match env.listObjectVersions bucket key with
    | .error err => ⟨d, [Call.listObjectVersions bucket key], .fail (.listingVersions err)⟩
    | .ok versions =>
      match deleteVersions env bucket key 0 versions with
      | (cs, r) => ⟨d, Call.listObjectVersions bucket key :: cs, r⟩
  else
    match env.deleteObject 0 bucket key none with
    | some err =>
      ⟨d, [Call.deleteObject bucket key none], .fail (.deletingObject err bucket key)⟩
    | none => ⟨d, [Call.deleteObject bucket key none], .ok⟩

/-- The `ConflictsWith` entries of the schema in `resourceAwsS3BucketObject`. -/
def conflictsWith : List (String × List String) :=
  [("source", ["content", "content_base64"]),
   ("content", ["source", "content_base64"]),
   ("content_base64", ["source", "content"]),
   ("etag", ["kms_key_id", "server_side_encryption"])]

/-- The configured value of the attributes that take part in a `ConflictsWith`. -/
def configValue (d : BucketObjectData) (k : String) : String :=
  if k = "source" then d.source
  else if k = "content" then d.content
  else if k = "content_base64" then d.content_base64
  else if k = "etag" then d.etag
  else if k = "kms_key_id" then d.kms_key_id
  else if k = "server_side_encryption" then d.server_side_encryption
  else ""

/-- Modelled from the spec: the framework's enforcement of the schema's
mutual-exclusion constraints (not among the source files; "setting ... more than one
is rejected before any network call"): an attribute that is set conflicts with the
first attribute of its `ConflictsWith` list that is set too. -/
def validateConflictingAttributes (d : BucketObjectData) :
    List (String × List String) → Option Failure
  | [] => none
  | (k, others) :: rest =>
    if configValue d k ≠ "" then
      match others.find? (fun o => configValue d o != "") with
      | some o => some (.conflictsWith k o)
      | none => validateConflictingAttributes d rest
    else validateConflictingAttributes d rest

/-- Modelled from the spec: the framework validates the configuration against the
schema before it invokes the create/update callback. -/
def validateThenPut (env : S3Env) (d : BucketObjectData) : Run BucketObjectData :=
  match validateConflictingAttributes d conflictsWith with
  | some err => ⟨d, [], .fail err⟩
  | none => resourceAwsS3BucketObjectPut env d

/-- How many of `source`, `content`, `content_base64` are set. -/
def contentSourcesSet (d : BucketObjectData) : Nat :=
  (if d.source ≠ "" then 1 else 0) + (if d.content ≠ "" then 1 else 0)
    + (if d.content_base64 ≠ "" then 1 else 0)

/-! ## Auxiliary definitions and sample environments -/

/-- The page requests `i, i+1, ..., i+n-1` of one listing. -/
def pageRequests : Nat → Nat → List Call
  | _, 0 => []
  | i, n + 1 => Call.listInvitations i :: pageRequests (i + 1) n

/-- Every page request of the listing succeeds and no invitation on any page comes
from `masterID`. -/
def NoMatch (masterID : String) (listing : List (Except GoError (List Invitation))) : Prop :=
  ∀ r ∈ listing, ∃ page, r = .ok page ∧
    ∀ x ∈ page, awsStringValue x.AccountId ≠ masterID

/-- The page requests of a run of attempts that each scan their whole listing. -/
def allPageRequests (attempts : List (List (Except GoError (List Invitation)))) : List Call :=
  attempts.flatMap (fun l => pageRequests 0 l.length)

/-- The error `resource.Retry` holds after the given attempts found nothing. -/
def lastAfter (det m : String) (attempts : List (List (Except GoError (List Invitation))))
    (last : Option Failure) : Option Failure :=
  if attempts.isEmpty then last else some (.notFound det m)

/-- A remote side with no pending invitation and no master account. -/
def quietGuardDuty : GuardDutyEnv where
  listings := []
  acceptInvitation := fun _ _ _ => none
  getMasterAccount := fun _ => .ok none
  disassociateFromMasterAccount := fun _ => none

/-- A listing whose only invitation comes from the master account but carries an
empty invitation id. -/
def emptyIdGuardDuty : GuardDutyEnv where
  listings := [[.ok [⟨some "123456789012", some ""⟩]]]
  acceptInvitation := fun _ _ _ => none
  getMasterAccount := fun _ => .ok (some ⟨some "123456789012"⟩)
  disassociateFromMasterAccount := fun _ => none

/-- A three-page listing whose first invitation from the master account is the
second one on page 2; page 3 holds another one. -/
def threePageGuardDuty : GuardDutyEnv where
  listings :=
    [[.ok [⟨some "999999999999", some "inv-1"⟩],
      .ok [⟨some "888888888888", some "inv-2a"⟩, ⟨some "123456789012", some "inv-2b"⟩,
           ⟨some "123456789012", some "inv-2c"⟩],
      .ok [⟨some "123456789012", some "inv-3"⟩]]]
  acceptInvitation := fun _ _ _ => none
  getMasterAccount := fun _ => .ok (some ⟨some "123456789012"⟩)
  disassociateFromMasterAccount := fun _ => none

/-- A remote side holding one object with ETag `"abc"` and version `v1`; the local
file `/tmp/a.txt` holds the bytes `hi`. -/
def sampleS3 : S3Env where
  isChinaCloud := false
  homedirExpand := fun p => .ok p
  osOpen := fun p => if p = "/tmp/a.txt" then .ok [104, 105] else .error "no such file"
  base64Decode := fun s => if s = "aGk=" then .ok [104, 105] else .error "illegal base64 data"
  urlValuesEncode := fun _ => ""
  tagsToMapS3 := fun ts => ts.map (fun t => (awsStringValue t.Key, awsStringValue t.Value))
  putObject := fun _ => .ok ⟨some "\"abc\"", some "v1"⟩
  headObject := fun _ _ => .ok { ETag := some "\"abc\"", VersionId := some "v1" }
  describeKey := fun _ => .ok ⟨some ⟨some "arn:aws:kms:us-east-1:111122223333:key/default"⟩⟩
  getObjectTagging := fun _ _ => .ok []
  listObjectVersions := fun _ _ => .ok []
  deleteObject := fun _ _ _ _ => none

/-- A versioned bucket whose listing under `k` holds three versions; the delete of
the second one is refused. -/
def versionedS3 : S3Env :=
  { sampleS3 with
    listObjectVersions := fun _ _ =>
      .ok [⟨some "k", some "v3"⟩, ⟨some "k", some "v2"⟩, ⟨some "k", some "v1"⟩]
    deleteObject := fun i _ _ _ => if i = 1 then some (.other "AccessDenied") else none }

/-- The same listing with every delete accepted. -/
def versionedOkS3 : S3Env :=
  { versionedS3 with deleteObject := fun _ _ _ _ => none }

/-- The object is gone: the metadata fetch fails with a 404 request failure. -/
def goneS3 : S3Env :=
  { sampleS3 with
    headObject := fun _ _ => .error (.aws ⟨"NotFound", "Not Found", some 404⟩) }

/-- The metadata fetch is refused with a 403 request failure. -/
def forbiddenS3 : S3Env :=
  { sampleS3 with
    headObject := fun _ _ => .error (.aws ⟨"Forbidden", "Forbidden", some 403⟩) }

/-- The detector is reported as not owned by the calling account. -/
def notOwnedGuardDuty : GuardDutyEnv :=
  { quietGuardDuty with
    getMasterAccount := fun _ => .error (.aws ⟨"BadRequestException",
      "The request is rejected because the input detectorId is not owned by the current account.",
      some 400⟩) }

/-- The object is encrypted under the default S3 key of the account. -/
def defaultKeyS3 : S3Env :=
  { sampleS3 with
    headObject := fun _ _ => .ok
      { ETag := some "\"abc\"", ServerSideEncryption := some "aws:kms",
        SSEKMSKeyId := some "arn:aws:kms:us-east-1:111122223333:key/default" } }

/-- The object is encrypted under a key of its own. -/
def customKeyS3 : S3Env :=
  { sampleS3 with
    headObject := fun _ _ => .ok
      { ETag := some "\"abc\"", ServerSideEncryption := some "aws:kms",
        SSEKMSKeyId := some "arn:aws:kms:us-east-1:111122223333:key/custom" } }

/-- Between the upload and the follow-up metadata fetch the object is overwritten by
another writer: the upload answers ETag `"new"`, version `v2`; the fetch reports
ETag `"other"`, version `v3`. -/
def overwrittenS3 : S3Env :=
  { sampleS3 with
    putObject := fun _ => .ok ⟨some "\"new\"", some "v2"⟩
    headObject := fun _ _ => .ok { ETag := some "\"other\"", VersionId := some "v3" } }

/-- The upload succeeds but the follow-up metadata fetch answers 404. -/
def uploadedThenGoneS3 : S3Env :=
  { goneS3 with putObject := fun _ => .ok ⟨some "\"new\"", some "v2"⟩ }

/-- The metadata fetch succeeds and reports a key of its own, but the default-key
lookup is refused. -/
def kmsLookupFailsS3 : S3Env :=
  { sampleS3 with
    headObject := fun _ _ => .ok
      { ContentType := some "text/plain", VersionId := some "v7", ETag := some "\"abc\"",
        SSEKMSKeyId := some "arn:aws:kms:us-east-1:111122223333:key/custom" }
    describeKey := fun _ => .error (.aws ⟨"AccessDeniedException", "not authorized", some 400⟩) }

/-- The metadata fetch succeeds but the tag fetch is refused. -/
def tagFetchFailsS3 : S3Env :=
  { sampleS3 with
    headObject := fun _ _ => .ok
      { ContentType := some "text/plain", VersionId := some "v7", ETag := some "\"abc\"" }
    getObjectTagging := fun _ _ => .error (.aws ⟨"AccessDenied", "Access Denied", some 403⟩) }

/-- The upload succeeds but the follow-up metadata fetch is refused with a 403. -/
def uploadedThenForbiddenS3 : S3Env :=
  { forbiddenS3 with putObject := fun _ => .ok ⟨some "\"new\"", some "v2"⟩ }

/-- The invitation is found and accepted, but the follow-up master-account fetch
fails with an internal error. -/
def acceptedThenFailingGuardDuty : GuardDutyEnv :=
  { threePageGuardDuty with
    getMasterAccount := fun _ =>
      .error (.aws ⟨"InternalServerErrorException", "internal error", some 500⟩) }

/-- The upload itself is refused. -/
def uploadRefusedS3 : S3Env :=
  { sampleS3 with
    putObject := fun _ => .error (.aws ⟨"AccessDenied", "Access Denied", some 403⟩) }

/-- The resource data once read has mirrored the eight fields it copies directly from
the metadata response (`d.Set("cache_control", ...)` to `d.Set("website_redirect", ...)`). -/
def mirrorMetadata (d : BucketObjectData) (resp : HeadObjectOutput) : BucketObjectData :=
  { d with
    cache_control := awsStringValue resp.CacheControl
    content_disposition := awsStringValue resp.ContentDisposition
    content_encoding := awsStringValue resp.ContentEncoding
    content_language := awsStringValue resp.ContentLanguage
    content_type := awsStringValue resp.ContentType
    version_id := awsStringValue resp.VersionId
    server_side_encryption := awsStringValue resp.ServerSideEncryption
    website_redirect := awsStringValue resp.WebsiteRedirectLocation }

/-- The resource data once put has recorded the upload response: etag with the
quotes stripped, version id, and the key as identity. -/
def recordUpload (d : BucketObjectData) (etag : String) (resp : PutObjectOutput) :
    BucketObjectData :=
  { d with etag := stringsTrim etag '"', version_id := awsStringValue resp.VersionId,
           id := d.key }

/-- The `source` branch of the body selection in `resourceAwsS3BucketObjectPut`:
expand the path, open the file. -/
def bodyFromSource (env : S3Env) (source : String) : Except Failure (List UInt8) :=
  match env.homedirExpand source with
  | .error err => .error (.expandingHomedir source err)
  | .ok path =>
    match env.osOpen path with
    | .error err => .error (.openingSource source err)
    | .ok file => .ok file

/-- The `content_base64` branch of the body selection: decode the string. -/
def bodyFromBase64 (env : S3Env) (content : String) : Except Failure (List UInt8) :=
  match env.base64Decode content with
  | .error err => .error (.decodingBase64 err)
  | .ok contentRaw => .ok contentRaw

/-- The errors that `resourceAwsGuardDutyInviteAccepterRead` returns. -/
def isAccepterReadFailure : Failure → Bool
  | .invalidId _ => true
  | .readingMaster _ _ => true
  | _ => false

/-- The errors that `resourceAwsS3BucketObjectRead` returns. -/
def isObjectReadFailure : Failure → Bool
  | .remote _ => true
  | .describingKey _ => true
  | .gettingTags _ _ _ => true
  | _ => false

/-! ## Lemmas on splitting -/

theorem stringsIndex_eq_none {sep : Char} {s : List Char} :
    stringsIndex sep s = none ↔ sep ∉ s := by
  induction s with
  | nil => simp [stringsIndex]
  | cons c cs ih =>
    by_cases h : c = sep
    · simp [stringsIndex, h]
    · simp [stringsIndex, h, ih, Ne.symm h]

theorem stringsIndex_append {sep : Char} {a : List Char} (b : List Char) (h : sep ∉ a) :
    stringsIndex sep (a ++ sep :: b) = some a.length := by
  induction a with
  | nil => simp [stringsIndex]
  | cons c cs ih =>
    have hc : c ≠ sep := fun e => h (by simp [e])
    have hcs : sep ∉ cs := fun e => h (by simp [e])
    simp [stringsIndex, hc, ih hcs]

theorem exists_first_occurrence {sep : Char} {s : List Char} (h : sep ∈ s) :
    ∃ a b, s = a ++ sep :: b ∧ sep ∉ a := by
  induction s with
  | nil => simp at h
  | cons c cs ih =>
    by_cases hc : c = sep
    · exact ⟨[], cs, by simp [hc], by simp⟩
    · have hmem : sep ∈ cs := by
        rcases List.mem_cons.1 h with e | e
        · exact absurd e.symm hc
        · exact e
      obtain ⟨a, b, hab, ha⟩ := ih hmem
      refine ⟨c :: a, b, by simp [hab], ?_⟩
      intro hm
      rcases List.mem_cons.1 hm with e | e
      · exact hc e.symm
      · exact ha e

theorem genSplit_succ_append {sep : Char} {a : List Char} (b : List Char) (n : Nat)
    (h : sep ∉ a) :
    genSplit sep (n + 1) (a ++ sep :: b) = a :: genSplit sep n b := by
  simp [genSplit, stringsIndex_append b h]

theorem genSplit_length {sep : Char} :
    ∀ (n : Nat) (s : List Char), s.count sep = n → (genSplit sep n s).length = n + 1 := by
  intro n
  induction n with
  | zero => intro s _; simp [genSplit]
  | succ n ih =>
    intro s hs
    have hmem : sep ∈ s := by
      apply List.count_pos_iff.1
      omega
    obtain ⟨a, b, hab, ha⟩ := exists_first_occurrence hmem
    subst hab
    rw [genSplit_succ_append b n ha]
    have hb : b.count sep = n := by
      have := hs
      simp [List.count_append, List.count_eq_zero_of_not_mem ha] at this
      exact this
    simp [ih b hb]

theorem takeWhile_ne_append {sep : Char} {a : List Char} (b : List Char) (h : sep ∉ a) :
    (a ++ sep :: b).takeWhile (· != sep) = a := by
  induction a with
  | nil => simp
  | cons c cs ih =>
    have hc : c ≠ sep := fun e => h (by simp [e])
    have hcs : sep ∉ cs := fun e => h (by simp [e])
    have hb : (c != sep) = true := by simpa using hc
    simp [List.takeWhile, hb, ih hcs]

theorem dropWhile_ne_append {sep : Char} {a : List Char} (b : List Char) (h : sep ∉ a) :
    (a ++ sep :: b).dropWhile (· != sep) = sep :: b := by
  induction a with
  | nil => simp
  | cons c cs ih =>
    have hc : c ≠ sep := fun e => h (by simp [e])
    have hcs : sep ∉ cs := fun e => h (by simp [e])
    have hb : (c != sep) = true := by simpa using hc
    simp [List.dropWhile, hb, ih hcs]

/-- Closed form of the decoder: it succeeds exactly on one colon, with the text
before and after it. -/
theorem decode_eq (id : String) :
    decodeGuardDutyInviteAccepterID id =
      if id.data.count ':' = 1 then
        .ok (String.mk (id.data.takeWhile (· != ':')),
             String.mk ((id.data.dropWhile (· != ':')).drop 1))
      else .error (.invalidId id) := by
  unfold decodeGuardDutyInviteAccepterID stringsSplit stringsCount
  rcases hn : id.data.count ':' with _ | _ | n
  · simp [genSplit]
  · have hmem : ':' ∈ id.data := by
      apply List.count_pos_iff.1
      omega
    obtain ⟨a, b, hab, ha⟩ := exists_first_occurrence hmem
    rw [hab, genSplit_succ_append b 0 ha, takeWhile_ne_append b ha, dropWhile_ne_append b ha]
    simp [genSplit]
  · have hlen := genSplit_length (n + 2) id.data hn
    generalize genSplit ':' (n + 2) id.data = parts at hlen
    match parts, hlen with
    | [], h => simp at h
    | [_], h => simp at h
    | [_, _], h => simp at h
    | _ :: _ :: _ :: _, _ => simp

/-- Decoding `a ++ ":" ++ b` when neither part holds a colon. -/
theorem decode_append {a b : String} (ha : ':' ∉ a.data) (hb : ':' ∉ b.data) :
    decodeGuardDutyInviteAccepterID (a ++ ":" ++ b) = .ok (a, b) := by
  have hdata : (a ++ ":" ++ b).data = a.data ++ ':' :: b.data := by
    simp [String.data_append]
  have hcount : (a.data ++ ':' :: b.data).count ':' = 1 := by
    simp [List.count_append, List.count_eq_zero_of_not_mem ha,
      List.count_eq_zero_of_not_mem hb]
  rw [decode_eq, hdata, if_pos hcount, takeWhile_ne_append _ ha, dropWhile_ne_append _ ha]
  simp

/-- A successful decode splits the identity at its only colon. -/
theorem decode_ok_data {id a b : String} (h : decodeGuardDutyInviteAccepterID id = .ok (a, b)) :
    id.data = a.data ++ ':' :: b.data ∧ ':' ∉ a.data ∧ ':' ∉ b.data := by
  rw [decode_eq] at h
  by_cases hc : id.data.count ':' = 1
  · rw [if_pos hc] at h
    have hmem : ':' ∈ id.data := by
      apply List.count_pos_iff.1
      omega
    obtain ⟨x, y, hxy, hx⟩ := exists_first_occurrence hmem
    rw [hxy, takeWhile_ne_append y hx, dropWhile_ne_append y hx] at h
    simp at h
    obtain ⟨h1, h2⟩ := h
    subst h1
    subst h2
    refine ⟨hxy, hx, ?_⟩
    rw [hxy] at hc
    simp [List.count_append, List.count_eq_zero_of_not_mem hx] at hc
    exact List.count_eq_zero.1 hc
  · rw [if_neg hc] at h
    simp at h

/-! ## Lemmas on the invitation scan -/

theorem scanInvitations_none {m : String} {page : List Invitation}
    (h : ∀ x ∈ page, awsStringValue x.AccountId ≠ m) : scanInvitations m page = none := by
  induction page with
  | nil => rfl
  | cons x xs ih =>
    have hx : awsStringValue x.AccountId ≠ m := h x (by simp)
    have hxs : ∀ y ∈ xs, awsStringValue y.AccountId ≠ m := fun y hy => h y (by simp [hy])
    simp [scanInvitations, hx, ih hxs]

theorem scanInvitations_first {m : String} {xs : List Invitation} (inv : Invitation)
    (ys : List Invitation) (h : ∀ x ∈ xs, awsStringValue x.AccountId ≠ m)
    (hinv : awsStringValue inv.AccountId = m) :
    scanInvitations m (xs ++ inv :: ys) = some (awsStringValue inv.InvitationId) := by
  induction xs with
  | nil => simp [scanInvitations, hinv]
  | cons x xs ih =>
    have hx : awsStringValue x.AccountId ≠ m := h x (by simp)
    have hxs : ∀ y ∈ xs, awsStringValue y.AccountId ≠ m := fun y hy => h y (by simp [hy])
    simp [scanInvitations, hx, ih hxs]

theorem NoMatch.tail {m : String} {r : Except GoError (List Invitation)}
    {rest : List (Except GoError (List Invitation))} (h : NoMatch m (r :: rest)) :
    NoMatch m rest :=
  fun x hx => h x (by simp [hx])

theorem NoMatch.head {m : String} {r : Except GoError (List Invitation)}
    {rest : List (Except GoError (List Invitation))} (h : NoMatch m (r :: rest)) :
    ∃ page, r = .ok page ∧ scanInvitations m page = none := by
  obtain ⟨page, hp, hno⟩ := h r (by simp)
  exact ⟨page, hp, scanInvitations_none hno⟩

theorem listInvitationsPages_noMatch {m : String} :
    ∀ (listing : List (Except GoError (List Invitation))) (s : String) (i : Nat),
      NoMatch m listing →
      listInvitationsPages m s i listing = (s, pageRequests i listing.length, none) := by
  intro listing
  induction listing with
  | nil => intro s i _; rfl
  | cons r rest ih =>
    intro s i h
    obtain ⟨page, hp, hscan⟩ := h.head
    subst hp
    cases rest with
    | nil => simp [listInvitationsPages, pageCallback, hscan, pageRequests]
    | cons r2 rest2 =>
      simp [listInvitationsPages, pageCallback, hscan, pageRequests, ih s (i + 1) h.tail]

theorem listInvitationsPages_match {m v : String} {page : List Invitation}
    (post : List (Except GoError (List Invitation)))
    (hscan : scanInvitations m page = some v) :
    ∀ (pre : List (Except GoError (List Invitation))) (s : String) (i : Nat),
      NoMatch m pre →
      listInvitationsPages m s i (pre ++ .ok page :: post)
        = (v, pageRequests i (pre.length + 1), none) := by
  intro pre
  induction pre with
  | nil => intro s i _; simp [listInvitationsPages, pageCallback, hscan, pageRequests]
  | cons r rest ih =>
    intro s i h
    obtain ⟨q, hq, hno⟩ := h.head
    subst hq
    have hne : (rest ++ Except.ok page :: post).isEmpty = false := by cases rest <;> rfl
    simp [listInvitationsPages, pageCallback, hno, pageRequests, ih s (i + 1) h.tail, hne]

theorem retryFunc_noMatch {det m : String} {listing : List (Except GoError (List Invitation))}
    (h : NoMatch m listing) :
    retryFunc det m "" listing
      = ("", pageRequests 0 listing.length, some (.retryable (.notFound det m))) := by
  simp [retryFunc, listInvitationsPages_noMatch listing "" 0 h]

theorem retryFunc_match {det m v : String} {page : List Invitation}
    {pre : List (Except GoError (List Invitation))}
    (post : List (Except GoError (List Invitation)))
    (hpre : NoMatch m pre) (hscan : scanInvitations m page = some v) (hv : v ≠ "") :
    retryFunc det m "" (pre ++ .ok page :: post)
      = (v, pageRequests 0 (pre.length + 1), none) := by
  simp [retryFunc, listInvitationsPages_match post hscan pre "" 0 hpre, hv]

theorem resourceRetry_noMatch_append {det m : String}
    (rest : List (List (Except GoError (List Invitation)))) :
    ∀ (earlier : List (List (Except GoError (List Invitation)))) (last : Option Failure),
      (∀ l ∈ earlier, NoMatch m l) →
      resourceRetry (retryFunc det m) "" last (earlier ++ rest) =
        ((resourceRetry (retryFunc det m) "" (lastAfter det m earlier last) rest).1,
         allPageRequests earlier ++
           (resourceRetry (retryFunc det m) "" (lastAfter det m earlier last) rest).2.1,
         (resourceRetry (retryFunc det m) "" (lastAfter det m earlier last) rest).2.2) := by
  intro earlier
  induction earlier with
  | nil => intro last _; simp [allPageRequests, lastAfter]
  | cons l ls ih =>
    intro last h
    have hl : NoMatch m l := h l (by simp)
    have hls : ∀ x ∈ ls, NoMatch m x := fun x hx => h x (by simp [hx])
    have hlast : lastAfter det m ls (some (.notFound det m)) = lastAfter det m (l :: ls) last := by
      cases ls <;> simp [lastAfter]
    have e := ih (some (.notFound det m)) hls
    rw [hlast] at e
    simp [resourceRetry, retryFunc_noMatch hl, e, allPageRequests]

/-! ## Identity of the invite accepter -/

/-- C1: identity round trip of the invitation accepter. Whenever
`decodeGuardDutyInviteAccepterID id` succeeds with `(a, b)`, re-encoding
`a + ":" + b` gives back `id`; and for colon-free `A`, `B` decoding the identity that
create sets from them succeeds with exactly `(A, B)`. -/
theorem C1_identity_round_trip (id a b A B : String) :
    (decodeGuardDutyInviteAccepterID id = .ok (a, b) → a ++ ":" ++ b = id) ∧
    (':' ∉ A.data → ':' ∉ B.data →
      decodeGuardDutyInviteAccepterID (inviteAccepterID A B) = .ok (A, B)) := by
  constructor
  · intro h
    obtain ⟨hd, _, _⟩ := decode_ok_data h
    apply String.ext
    simp [String.data_append, hd]
  · intro hA hB
    exact decode_append hA hB

theorem C1_identity_round_trip_witness :
    decodeGuardDutyInviteAccepterID "d41:123456789012" = .ok ("d41", "123456789012") ∧
    "d41" ++ ":" ++ "123456789012" = "d41:123456789012" ∧
    decodeGuardDutyInviteAccepterID (inviteAccepterID "d41" "123456789012")
      = .ok ("d41", "123456789012") :=
  ⟨by rfl,
   (C1_identity_round_trip "d41:123456789012" "d41" "123456789012" "d41" "123456789012").1
     (by rfl),
   (C1_identity_round_trip "d41:123456789012" "d41" "123456789012" "d41" "123456789012").2
     (by decide) (by decide)⟩

/-- C2: `decodeGuardDutyInviteAccepterID` fails exactly when the identity does not
hold exactly one colon; on exactly one colon it returns the text before the colon as
detector id and the text after it as master id; and when decoding the stored identity
fails, read and delete return that error, issue no remote call and leave the data
as it was. -/
theorem C2_decode_fails_iff_not_one_colon (id : String) (env : GuardDutyEnv)
    (d : InviteAccepterData) :
    ((∃ e, decodeGuardDutyInviteAccepterID id = .error e) ↔ id.data.count ':' ≠ 1) ∧
    (id.data.count ':' = 1 →
      decodeGuardDutyInviteAccepterID id =
        .ok (String.mk (id.data.takeWhile (· != ':')),
             String.mk ((id.data.dropWhile (· != ':')).drop 1))) ∧
    (∀ e, decodeGuardDutyInviteAccepterID d.id = .error e →
      resourceAwsGuardDutyInviteAccepterRead env d = ⟨d, [], .fail e⟩ ∧
      resourceAwsGuardDutyInviteAccepterDelete env d = ⟨d, [], .fail e⟩) := by
  refine ⟨?_, ?_, ?_⟩
  · rw [decode_eq]
    by_cases hc : id.data.count ':' = 1
    · simp [hc]
    · simp [hc]
  · intro hc
    rw [decode_eq, if_pos hc]
  · intro e he
    simp [resourceAwsGuardDutyInviteAccepterRead, resourceAwsGuardDutyInviteAccepterDelete, he]

theorem C2_decode_fails_iff_not_one_colon_witness :
    decodeGuardDutyInviteAccepterID "d41:123456789012" = .ok ("d41", "123456789012") ∧
    resourceAwsGuardDutyInviteAccepterRead quietGuardDuty ⟨"a:b:c", "a", "b"⟩
      = ⟨⟨"a:b:c", "a", "b"⟩, [], .fail (.invalidId "a:b:c")⟩ ∧
    resourceAwsGuardDutyInviteAccepterDelete quietGuardDuty ⟨"a:b:c", "a", "b"⟩
      = ⟨⟨"a:b:c", "a", "b"⟩, [], .fail (.invalidId "a:b:c")⟩ :=
  ⟨(C2_decode_fails_iff_not_one_colon "d41:123456789012" quietGuardDuty
      ⟨"a:b:c", "a", "b"⟩).2.1 (by decide),
   (C2_decode_fails_iff_not_one_colon "d41:123456789012" quietGuardDuty
      ⟨"a:b:c", "a", "b"⟩).2.2 (.invalidId "a:b:c") (by rfl)⟩

/-! ## Create of the invite accepter -/

theorem read_calls_getMasterAccount (env : GuardDutyEnv) (d : InviteAccepterData) :
    ∀ c ∈ (resourceAwsGuardDutyInviteAccepterRead env d).calls,
      ∃ x, c = Call.getMasterAccount x := by
  intro c hc
  unfold resourceAwsGuardDutyInviteAccepterRead at hc
  split at hc
  · simp at hc
  · split at hc
    · split at hc <;> simp at hc <;> exact ⟨_, hc⟩
    · simp at hc; exact ⟨_, hc⟩
    · simp at hc; exact ⟨_, hc⟩

/-- C3 as stated fails: the only invitation of the listing comes from `master_id` but
its invitation id is empty; the scan stops at it, the attempt counts as "not found",
and no accept call carrying that invitation's id follows: create ends with the
not-found error after the single page request. -/
theorem C3_first_match_counterexample :
    (∃ inv ∈ [(⟨some "123456789012", some ""⟩ : Invitation)],
      awsStringValue inv.AccountId = "123456789012" ∧
      Call.acceptInvitation "d41" (awsStringValue inv.InvitationId) "123456789012" ∉
        (resourceAwsGuardDutyInviteAccepterCreate emptyIdGuardDuty
          ⟨"", "d41", "123456789012"⟩).calls) ∧
    (resourceAwsGuardDutyInviteAccepterCreate emptyIdGuardDuty ⟨"", "d41", "123456789012"⟩).calls
      = [Call.listInvitations 0] ∧
    (resourceAwsGuardDutyInviteAccepterCreate emptyIdGuardDuty ⟨"", "d41", "123456789012"⟩).result
      = .fail (.notFound "d41" "123456789012") := by
  refine ⟨⟨_, List.mem_singleton.2 rfl, rfl, ?_⟩, rfl, rfl⟩
  have h : (resourceAwsGuardDutyInviteAccepterCreate emptyIdGuardDuty
      ⟨"", "d41", "123456789012"⟩).calls = [Call.listInvitations 0] := rfl
  rw [h]
  simp

/-- C3 (amended): first match wins. Let the attempts before the one considered scan
their listings without a match, and let that attempt's listing hold, after pages
`pre` without a match, a page whose first invitation from `master_id` is `inv`, with
a non-empty invitation id. Then create requests every page of the earlier attempts,
then pages `0 .. pre.length` of this listing and no later page, and the next call is
the only accept call, carrying `detector_id`, the id of `inv` and `master_id`; what
follows is at most the read's master-account fetch. -/
theorem C3_first_match_wins (env : GuardDutyEnv) (d : InviteAccepterData)
    (earlier later : List (List (Except GoError (List Invitation))))
    (pre post : List (Except GoError (List Invitation)))
    (xs ys : List Invitation) (inv : Invitation)
    (hl : env.listings = earlier ++ (pre ++ .ok (xs ++ inv :: ys) :: post) :: later)
    (hearlier : ∀ l ∈ earlier, NoMatch d.master_id l)
    (hpre : NoMatch d.master_id pre)
    (hxs : ∀ x ∈ xs, awsStringValue x.AccountId ≠ d.master_id)
    (hinv : awsStringValue inv.AccountId = d.master_id)
    (hid : awsStringValue inv.InvitationId ≠ "") :
    ∃ tail,
      (resourceAwsGuardDutyInviteAccepterCreate env d).calls =
        allPageRequests earlier ++ pageRequests 0 (pre.length + 1) ++
          Call.acceptInvitation d.detector_id (awsStringValue inv.InvitationId) d.master_id
            :: tail ∧
      ∀ c ∈ tail, ∃ x, c = Call.getMasterAccount x := by
  have hscan := scanInvitations_first inv ys hxs hinv
  have hretry : resourceRetry (retryFunc d.detector_id d.master_id) "" none env.listings =
      (awsStringValue inv.InvitationId,
        allPageRequests earlier ++ pageRequests 0 (pre.length + 1), none) := by
    rw [hl, resourceRetry_noMatch_append _ earlier none hearlier]
    simp [resourceRetry, retryFunc_match post hpre hscan hid]
  unfold resourceAwsGuardDutyInviteAccepterCreate
  simp only [hretry]
  cases hacc : env.acceptInvitation d.detector_id (awsStringValue inv.InvitationId) d.master_id with
  | some err => exact ⟨[], by simp, by simp⟩
  | none =>
    exact ⟨(resourceAwsGuardDutyInviteAccepterRead env
        { d with id := inviteAccepterID d.detector_id d.master_id }).calls, by simp,
      read_calls_getMasterAccount env _⟩

theorem C3_first_match_wins_witness :
    (resourceAwsGuardDutyInviteAccepterCreate threePageGuardDuty
        ⟨"", "d41", "123456789012"⟩).calls =
      [Call.listInvitations 0, Call.listInvitations 1,
        Call.acceptInvitation "d41" "inv-2b" "123456789012", Call.getMasterAccount "d41"] ∧
    ∃ tail,
      (resourceAwsGuardDutyInviteAccepterCreate threePageGuardDuty
        ⟨"", "d41", "123456789012"⟩).calls =
        allPageRequests [] ++ pageRequests 0 (1 + 1) ++
          Call.acceptInvitation "d41" "inv-2b" "123456789012" :: tail ∧
      ∀ c ∈ tail, ∃ x, c = Call.getMasterAccount x :=
  ⟨rfl,
   C3_first_match_wins threePageGuardDuty ⟨"", "d41", "123456789012"⟩ [] []
    [.ok [⟨some "999999999999", some "inv-1"⟩]]
    [.ok [⟨some "123456789012", some "inv-3"⟩]]
    [⟨some "888888888888", some "inv-2a"⟩] [⟨some "123456789012", some "inv-2c"⟩]
    ⟨some "123456789012", some "inv-2b"⟩
    rfl (by simp) (by simp [NoMatch, awsStringValue]) (by simp [awsStringValue]) rfl
    (by simp [awsStringValue])⟩

/-- C4: create with no match. When every listing attempt made within the create
timeout succeeds on every page and no page holds an invitation from `master_id`,
create fails with an error (the not-found error of the last attempt, or the timeout
error when no attempt was made), its calls are page requests only, so no accept call
is issued, and the resource data, identity included, is left as it was. -/
theorem C4_create_no_match (env : GuardDutyEnv) (d : InviteAccepterData)
    (h : ∀ l ∈ env.listings, NoMatch d.master_id l) :
    (∃ e, (resourceAwsGuardDutyInviteAccepterCreate env d).result = .fail e) ∧
    (resourceAwsGuardDutyInviteAccepterCreate env d).result =
      .fail (if env.listings.isEmpty then .timeout
             else .notFound d.detector_id d.master_id) ∧
    (resourceAwsGuardDutyInviteAccepterCreate env d).calls = allPageRequests env.listings ∧
    (∀ a b c, Call.acceptInvitation a b c ∉
      (resourceAwsGuardDutyInviteAccepterCreate env d).calls) ∧
    (resourceAwsGuardDutyInviteAccepterCreate env d).d = d := by
  have hretry : resourceRetry (retryFunc d.detector_id d.master_id) "" none env.listings =
      ("", allPageRequests env.listings,
        some (if env.listings.isEmpty then .timeout
              else .notFound d.detector_id d.master_id)) := by
    have e := @resourceRetry_noMatch_append d.detector_id d.master_id [] env.listings none h
    rw [List.append_nil] at e
    rw [e]
    cases env.listings <;> simp [resourceRetry, lastAfter]
  have hcalls : ∀ (ls : List (List (Except GoError (List Invitation)))) (a b c : String),
      Call.acceptInvitation a b c ∉ allPageRequests ls := by
    intro ls a b c hmem
    simp only [allPageRequests, List.mem_flatMap] at hmem
    obtain ⟨l, _, hm⟩ := hmem
    have : ∀ (n i : Nat), Call.acceptInvitation a b c ∉ pageRequests i n := by
      intro n
      induction n with
      | zero => intro i; simp [pageRequests]
      | succ n ih => intro i; simp [pageRequests, ih (i + 1)]
    exact this _ _ hm
  unfold resourceAwsGuardDutyInviteAccepterCreate
  simp only [hretry]
  refine ⟨⟨_, rfl⟩, ?_, ?_, ?_, ?_⟩
  · trivial
  · trivial
  · exact hcalls _
  · trivial

theorem C4_create_no_match_witness :
    (resourceAwsGuardDutyInviteAccepterCreate
      { threePageGuardDuty with listings :=
          [[.ok [⟨some "999999999999", some "inv-1"⟩], .ok []],
           [.ok [⟨none, some "inv-9"⟩]]] }
      ⟨"", "d41", "123456789012"⟩).result = .fail (.notFound "d41" "123456789012") ∧
    (resourceAwsGuardDutyInviteAccepterCreate
      { threePageGuardDuty with listings :=
          [[.ok [⟨some "999999999999", some "inv-1"⟩], .ok []],
           [.ok [⟨none, some "inv-9"⟩]]] }
      ⟨"", "d41", "123456789012"⟩).calls =
        [Call.listInvitations 0, Call.listInvitations 1, Call.listInvitations 0] ∧
    (resourceAwsGuardDutyInviteAccepterCreate
      { threePageGuardDuty with listings :=
          [[.ok [⟨some "999999999999", some "inv-1"⟩], .ok []],
           [.ok [⟨none, some "inv-9"⟩]]] }
      ⟨"", "d41", "123456789012"⟩).d = ⟨"", "d41", "123456789012"⟩ :=
  ⟨(C4_create_no_match
      { threePageGuardDuty with listings :=
          [[.ok [⟨some "999999999999", some "inv-1"⟩], .ok []],
           [.ok [⟨none, some "inv-9"⟩]]] }
      ⟨"", "d41", "123456789012"⟩ (by simp [NoMatch, awsStringValue])).2.1,
   rfl, rfl⟩

/-! ## Object adapter: calls of read and put -/

theorem readAfterKms_calls (env : S3Env) (d : BucketObjectData) (resp : HeadObjectOutput)
    (calls : List Call) :
    ∀ c ∈ (readAfterKms env d resp calls).calls,
      c ∈ calls ∨ c = Call.getObjectTagging d.bucket d.key := by
  intro c hc
  unfold readAfterKms at hc
  split at hc
  · exact Or.inl hc
  · dsimp only at hc
    split at hc
    · split at hc
      · simp only [List.mem_append, List.mem_singleton] at hc
        rcases hc with h | h
        · exact Or.inl h
        · right; rw [h]; split <;> rfl
      · simp only [List.mem_append, List.mem_singleton] at hc
        rcases hc with h | h
        · exact Or.inl h
        · right; rw [h]; split <;> rfl
    · exact Or.inl hc

theorem read_calls_kinds (env : S3Env) (d : BucketObjectData) :
    ∀ c ∈ (resourceAwsS3BucketObjectRead env d).calls,
      c = Call.headObject d.bucket d.key ∨ c = Call.describeKey "alias/aws/s3" ∨
        c = Call.getObjectTagging d.bucket d.key := by
  intro c hc
  unfold resourceAwsS3BucketObjectRead at hc
  dsimp only at hc
  split at hc
  · split at hc <;> simp at hc <;> exact Or.inl hc
  · split at hc
    · rcases readAfterKms_calls _ _ _ _ c hc with h | h
      · simp at h; exact Or.inl h
      · exact Or.inr (Or.inr h)
    · split at hc
      · simp at hc; rcases hc with h | h
        · exact Or.inl h
        · exact Or.inr (Or.inl h)
      · split at hc
        · simp at hc; rcases hc with h | h
          · exact Or.inl h
          · exact Or.inr (Or.inl h)
        · rcases readAfterKms_calls _ _ _ _ c hc with h | h
          · simp at h; rcases h with h | h
            · exact Or.inl h
            · exact Or.inr (Or.inl h)
          · right; right; rw [h]; split <;> rfl

theorem read_calls_no_putObject (env : S3Env) (d : BucketObjectData) (inp : PutObjectInput) :
    Call.putObject inp ∉ (resourceAwsS3BucketObjectRead env d).calls := by
  intro h
  rcases read_calls_kinds env d _ h with h | h | h <;> simp at h

theorem put_calls_body (env : S3Env) (d : BucketObjectData) (inp : PutObjectInput)
    (h : Call.putObject inp ∈ (resourceAwsS3BucketObjectPut env d).calls) :
    putBody env d = .ok inp.Body := by
  unfold resourceAwsS3BucketObjectPut at h
  split at h
  · simp at h
  · rename_i body hbody
    dsimp only at h
    have hin : (putInput env d body).Body = body := rfl
    split at h
    · simp at h
    · split at h
      · simp at h
        rw [hbody, h, hin]
      · split at h
        · simp at h
          rw [hbody, h, hin]
        · simp only [List.mem_cons] at h
          rcases h with h | h
          · have h2 := Call.putObject.inj h
            rw [hbody, h2, hin]
          · exact absurd h (read_calls_no_putObject _ _ _)

/-! ## Object adapter: content source -/

theorem validate_some_of_two (d : BucketObjectData) (h : 2 ≤ contentSourcesSet d) :
    ∃ e, validateConflictingAttributes d conflictsWith = some e := by
  unfold contentSourcesSet at h
  by_cases h1 : d.source = "" <;> by_cases h2 : d.content = "" <;>
    by_cases h3 : d.content_base64 = "" <;>
    simp [h1, h2, h3] at h <;>
    simp [validateConflictingAttributes, conflictsWith, configValue, h1, h2, h3]

theorem putBody_of_none (env : S3Env) (d : BucketObjectData) (h : contentSourcesSet d = 0) :
    putBody env d = .error .mustSpecify := by
  unfold contentSourcesSet at h
  by_cases h1 : d.source = "" <;> by_cases h2 : d.content = "" <;>
    by_cases h3 : d.content_base64 = "" <;>
    simp [h1, h2, h3] at h
  simp [putBody, h1, h2, h3]

theorem validateThenPut_calls (env : S3Env) (d : BucketObjectData) (inp : PutObjectInput)
    (h : Call.putObject inp ∈ (validateThenPut env d).calls) :
    validateConflictingAttributes d conflictsWith = none ∧
      Call.putObject inp ∈ (resourceAwsS3BucketObjectPut env d).calls := by
  unfold validateThenPut at h
  split at h
  · simp at h
  · rename_i hv
    exact ⟨hv, h⟩

theorem validate_none_of_one (d : BucketObjectData) (h : contentSourcesSet d = 1)
    (hetag : d.etag = "" ∨ (d.kms_key_id = "" ∧ d.server_side_encryption = "")) :
    validateConflictingAttributes d conflictsWith = none := by
  unfold contentSourcesSet at h
  by_cases h1 : d.source = "" <;> by_cases h2 : d.content = "" <;>
    by_cases h3 : d.content_base64 = "" <;>
    simp [h1, h2, h3] at h <;>
    rcases hetag with he | ⟨hk, hs⟩ <;>
    simp [validateConflictingAttributes, conflictsWith, configValue, h1, h2, h3, *]

theorem put_first_call (env : S3Env) (d : BucketObjectData) (body : List UInt8)
    (hb : putBody env d = .ok body) (ht : ¬(d.tags ≠ [] ∧ env.isChinaCloud = true)) :
    (resourceAwsS3BucketObjectPut env d).calls.head? =
      some (Call.putObject (putInput env d body)) := by
  cases hp : env.putObject (putInput env d body) with
  | error err => simp [resourceAwsS3BucketObjectPut, hb, ht, hp]
  | ok resp =>
    cases he : resp.ETag with
    | none => simp [resourceAwsS3BucketObjectPut, hb, ht, hp, he]
    | some etag => simp [resourceAwsS3BucketObjectPut, hb, ht, hp, he]

/-- C5: content source of the object adapter. (1) When none or more than one of
`source`, `content`, `content_base64` is set, the configuration is rejected with an
error, no remote call is issued and the data is untouched. (2) So an upload
(`PutObject`) is issued only when exactly one of them is set. (3) The body of an
issued upload is resolved from the field that is set: the contents of the file at
the expanded `source` path, the bytes of `content`, or the decoded bytes of
`content_base64`. (4) The put callback itself rejects the case that none is set
("Must specify ..."); that more than one is set is rejected by the schema's
`ConflictsWith` before the callback runs. (5) The body is resolved from the one field
that is set and from nothing else: from `source` by expanding the path and opening
the file, from `content` as its bytes, from `content_base64` by decoding it. (6) When
exactly one of the three is set, the body resolves, `etag` is not in conflict and tags
are allowed in the region, the configuration is accepted and the first remote call is
the upload carrying that body. -/
theorem C5_content_source_exactly_one (env : S3Env) (d : BucketObjectData) :
    (contentSourcesSet d ≠ 1 →
      (validateThenPut env d).calls = [] ∧
      (∃ e, (validateThenPut env d).result = .fail e) ∧
      (validateThenPut env d).d = d) ∧
    (∀ inp, Call.putObject inp ∈ (validateThenPut env d).calls → contentSourcesSet d = 1) ∧
    (∀ inp, Call.putObject inp ∈ (validateThenPut env d).calls →
      (d.source ≠ "" →
        ∃ path, env.homedirExpand d.source = .ok path ∧ env.osOpen path = .ok inp.Body) ∧
      (d.content ≠ "" → inp.Body = stringBytes d.content) ∧
      (d.content_base64 ≠ "" → env.base64Decode d.content_base64 = .ok inp.Body)) ∧
    (contentSourcesSet d = 0 →
      resourceAwsS3BucketObjectPut env d = ⟨d, [], .fail .mustSpecify⟩) ∧
    ((d.source ≠ "" → putBody env d = bodyFromSource env d.source) ∧
      (d.source = "" → d.content ≠ "" → putBody env d = .ok (stringBytes d.content)) ∧
      (d.source = "" → d.content = "" → d.content_base64 ≠ "" →
        putBody env d = bodyFromBase64 env d.content_base64)) ∧
    (contentSourcesSet d = 1 →
      (d.etag = "" ∨ (d.kms_key_id = "" ∧ d.server_side_encryption = "")) →
      ∀ body, putBody env d = .ok body → ¬(d.tags ≠ [] ∧ env.isChinaCloud = true) →
        validateThenPut env d = resourceAwsS3BucketObjectPut env d ∧
        (validateThenPut env d).calls.head? = some (Call.putObject (putInput env d body)) ∧
        (putInput env d body).Body = body) := by
  have hreject : contentSourcesSet d ≠ 1 →
      (validateThenPut env d).calls = [] ∧
      (∃ e, (validateThenPut env d).result = .fail e) ∧
      (validateThenPut env d).d = d := by
    intro hne
    unfold validateThenPut
    rcases Nat.lt_or_ge (contentSourcesSet d) 2 with hlt | hge
    · have h0 : contentSourcesSet d = 0 := by omega
      split
      · exact ⟨rfl, ⟨_, rfl⟩, rfl⟩
      · simp [resourceAwsS3BucketObjectPut, putBody_of_none env d h0]
    · obtain ⟨e, he⟩ := validate_some_of_two d hge
      simp [he]
  have hone : ∀ inp, Call.putObject inp ∈ (validateThenPut env d).calls →
      contentSourcesSet d = 1 := by
    intro inp hin
    by_contra hne
    rw [(hreject hne).1] at hin
    simp at hin
  refine ⟨hreject, hone, ?_, ?_, ⟨?_, ?_, ?_⟩, ?_⟩
  · intro inp hin
    have h1 := hone inp hin
    have hbody := put_calls_body env d inp (validateThenPut_calls env d inp hin).2
    unfold contentSourcesSet at h1
    unfold putBody at hbody
    by_cases hs : d.source = "" <;> by_cases hc : d.content = "" <;>
      by_cases hb : d.content_base64 = "" <;>
      simp [hs, hc, hb] at h1 hbody ⊢
    · split at hbody
      · simp at hbody
      · rename_i raw hraw
        rw [hraw]
        simpa using hbody
    · simpa using hbody.symm
    · split at hbody
      · simp at hbody
      · rename_i path hpath
        refine ⟨path, hpath, ?_⟩
        split at hbody
        · simp at hbody
        · rename_i file hfile
          rw [hfile]
          simpa using hbody
  · intro h0
    simp [resourceAwsS3BucketObjectPut, putBody_of_none env d h0]
  · intro hs
    simp only [putBody, bodyFromSource, hs, ne_eq, not_false_eq_true, if_true]
  · intro hs hc
    simp [putBody, hs, hc]
  · intro hs hc hb
    simp only [putBody, bodyFromBase64, hs, hc, hb, ne_eq, not_true_eq_false,
      not_false_eq_true, if_true, if_false]
  · intro h1 hetag body hb ht
    have hv := validate_none_of_one d h1 hetag
    have hrun : validateThenPut env d = resourceAwsS3BucketObjectPut env d := by
      simp [validateThenPut, hv]
    exact ⟨hrun, by rw [hrun]; exact put_first_call env d body hb ht, rfl⟩

theorem C5_content_source_exactly_one_witness :
    (validateThenPut sampleS3 { bucket := "b", key := "k" }).calls = [] ∧
    (validateThenPut sampleS3
      { bucket := "b", key := "k", source := "/tmp/a.txt", content := "hi" }).result
        = .fail (.conflictsWith "source" "content") ∧
    (validateThenPut sampleS3 { bucket := "b", key := "k", content_base64 := "aGk=" }).calls
      = [Call.putObject { Bucket := "b", Key := "k", ACL := "private", Body := [104, 105] },
         Call.headObject "b" "k", Call.getObjectTagging "b" "k"] ∧
    sampleS3.base64Decode "aGk=" = .ok [104, 105] ∧
    (validateThenPut sampleS3 { bucket := "b", key := "k", source := "/tmp/a.txt" }).calls.head?
      = some (Call.putObject (putInput sampleS3
          { bucket := "b", key := "k", source := "/tmp/a.txt" } [104, 105])) :=
  ⟨((C5_content_source_exactly_one sampleS3 { bucket := "b", key := "k" }).1
      (by decide)).1,
   rfl, rfl,
   ((C5_content_source_exactly_one sampleS3
      { bucket := "b", key := "k", content_base64 := "aGk=" }).2.2.1
      { Bucket := "b", Key := "k", ACL := "private", Body := [104, 105] }
      (by decide)).2.2 (by decide),
   ((C5_content_source_exactly_one sampleS3
      { bucket := "b", key := "k", source := "/tmp/a.txt" }).2.2.2.2.2
      (by decide) (Or.inl rfl) [104, 105] rfl (by decide)).2.1⟩

/-! ## Object adapter: delete -/

theorem deleteVersions_all_ok (env : S3Env) (bucket key : String) :
    ∀ (versions : List ObjectVersion) (k : Nat),
      (∀ j v, versions[j]? = some v →
        env.deleteObject (k + j) bucket key v.VersionId = none) →
      deleteVersions env bucket key k versions =
        (versions.map (fun v => Call.deleteObject bucket key v.VersionId), .ok) := by
  intro versions
  induction versions with
  | nil => intro k _; rfl
  | cons v rest ih =>
    intro k h
    have h0 : env.deleteObject k bucket key v.VersionId = none := by
      simpa using h 0 v (by simp)
    have hrest : ∀ j w, rest[j]? = some w →
        env.deleteObject (k + 1 + j) bucket key w.VersionId = none := by
      intro j w hj
      have := h (j + 1) w (by simpa using hj)
      rwa [show k + (j + 1) = k + 1 + j by omega] at this
    simp [deleteVersions, h0, ih (k + 1) hrest]

theorem deleteVersions_first_fail (env : S3Env) (bucket key : String) (err : GoError)
    (v : ObjectVersion) :
    ∀ (versions : List ObjectVersion) (k i : Nat),
      versions[i]? = some v →
      (∀ j w, j < i → versions[j]? = some w →
        env.deleteObject (k + j) bucket key w.VersionId = none) →
      env.deleteObject (k + i) bucket key v.VersionId = some err →
      deleteVersions env bucket key k versions =
        ((versions.take (i + 1)).map (fun w => Call.deleteObject bucket key w.VersionId),
          .fail (.deletingVersion key v.VersionId err)) := by
  intro versions
  induction versions with
  | nil => intro k i hi; simp at hi
  | cons w rest ih =>
    intro k i hi hok hfail
    cases i with
    | zero =>
      simp at hi
      subst hi
      simp at hfail
      simp [deleteVersions, hfail]
    | succ i =>
      have h0 : env.deleteObject k bucket key w.VersionId = none := by
        simpa using hok 0 w (by omega) (by simp)
      have hi2 : rest[i]? = some v := by simpa using hi
      have hok2 : ∀ j x, j < i → rest[j]? = some x →
          env.deleteObject (k + 1 + j) bucket key x.VersionId = none := by
        intro j x hj hx
        have := hok (j + 1) x (by omega) (by simpa using hx)
        rwa [show k + (j + 1) = k + 1 + j by omega] at this
      have hfail2 : env.deleteObject (k + 1 + i) bucket key v.VersionId = some err := by
        rwa [show k + (i + 1) = k + 1 + i by omega] at hfail
      simp [deleteVersions, h0, ih (k + 1) i hi2 hok2 hfail2]

/-- C6: versioned delete. With a recorded (non-empty) `version_id`, a successful
listing `versions` under the key and every delete call succeeding, delete issues the
listing call followed by exactly one delete call per listed version, in listing
order, each for the bucket and key with that version's id, and returns success (for
an empty listing: no delete call at all). With no `version_id` recorded it issues exactly
one unversioned delete call for the bucket and key and no listing. -/
theorem C6_versioned_delete (env : S3Env) (d : BucketObjectData)
    (versions : List ObjectVersion) :
    (d.version_id ≠ "" →
      env.listObjectVersions d.bucket d.key = .ok versions →
      (∀ j v, versions[j]? = some v →
        env.deleteObject j d.bucket d.key v.VersionId = none) →
      resourceAwsS3BucketObjectDelete env d =
        ⟨d, Call.listObjectVersions d.bucket d.key ::
              versions.map (fun v => Call.deleteObject d.bucket d.key v.VersionId), .ok⟩) ∧
    (d.version_id = "" →
      (resourceAwsS3BucketObjectDelete env d).calls = [Call.deleteObject d.bucket d.key none] ∧
      (resourceAwsS3BucketObjectDelete env d).d = d) := by
  constructor
  · intro hv hlist hdel
    have hall := deleteVersions_all_ok env d.bucket d.key versions 0
      (by intro j v hj; simpa using hdel j v hj)
    simp [resourceAwsS3BucketObjectDelete, hv, hlist, hall]
  · intro hv
    unfold resourceAwsS3BucketObjectDelete
    simp only [hv]
    cases env.deleteObject 0 d.bucket d.key none <;> simp

theorem C6_versioned_delete_witness :
    resourceAwsS3BucketObjectDelete versionedOkS3 { bucket := "b", key := "k", version_id := "v3" }
      = ⟨{ bucket := "b", key := "k", version_id := "v3" },
          [Call.listObjectVersions "b" "k", Call.deleteObject "b" "k" (some "v3"),
           Call.deleteObject "b" "k" (some "v2"), Call.deleteObject "b" "k" (some "v1")], .ok⟩ ∧
    (resourceAwsS3BucketObjectDelete versionedOkS3 { bucket := "b", key := "k" }).calls
      = [Call.deleteObject "b" "k" none] :=
  ⟨(C6_versioned_delete versionedOkS3 { bucket := "b", key := "k", version_id := "v3" }
      [⟨some "k", some "v3"⟩, ⟨some "k", some "v2"⟩, ⟨some "k", some "v1"⟩]).1
      (by decide) rfl (fun _ _ _ => rfl),
   ((C6_versioned_delete versionedOkS3 { bucket := "b", key := "k" } []).2 rfl).1⟩

/-- C7: versioned delete aborts on the first failure. If the delete calls for the
versions before position `i` of the listing succeed and the one for the version at
position `i` fails, delete returns the error of that deletion, and the calls issued
are exactly the listing call and the delete calls for the versions at positions
`0 .. i`, in order: none for a later version, none repeated, none undone. -/
theorem C7_versioned_delete_aborts (env : S3Env) (d : BucketObjectData)
    (versions : List ObjectVersion) (i : Nat) (v : ObjectVersion) (err : GoError)
    (hv : d.version_id ≠ "")
    (hlist : env.listObjectVersions d.bucket d.key = .ok versions)
    (hi : versions[i]? = some v)
    (hok : ∀ j w, j < i → versions[j]? = some w →
      env.deleteObject j d.bucket d.key w.VersionId = none)
    (hfail : env.deleteObject i d.bucket d.key v.VersionId = some err) :
    resourceAwsS3BucketObjectDelete env d =
      ⟨d, Call.listObjectVersions d.bucket d.key ::
            (versions.take (i + 1)).map (fun w => Call.deleteObject d.bucket d.key w.VersionId),
        .fail (.deletingVersion d.key v.VersionId err)⟩ := by
  have h := deleteVersions_first_fail env d.bucket d.key err v versions 0 i hi
    (by intro j w hj hw; simpa using hok j w hj hw) (by simpa using hfail)
  simp [resourceAwsS3BucketObjectDelete, hv, hlist, h]

theorem C7_versioned_delete_aborts_witness :
    resourceAwsS3BucketObjectDelete versionedS3 { bucket := "b", key := "k", version_id := "v3" }
      = ⟨{ bucket := "b", key := "k", version_id := "v3" },
          [Call.listObjectVersions "b" "k", Call.deleteObject "b" "k" (some "v3"),
           Call.deleteObject "b" "k" (some "v2")],
          .fail (.deletingVersion "k" (some "v2") (.other "AccessDenied"))⟩ :=
  C7_versioned_delete_aborts versionedS3 { bucket := "b", key := "k", version_id := "v3" }
    [⟨some "k", some "v3"⟩, ⟨some "k", some "v2"⟩, ⟨some "k", some "v1"⟩] 1
    ⟨some "k", some "v2"⟩ (.other "AccessDenied") (by decide) rfl rfl
    (fun j _ hj _ => by
      have hj0 : j = 0 := by omega
      subst hj0
      rfl)
    rfl

/-! ## Read: absent remote object or association -/

/-- C8: a 404-class failure from read clears local state and returns success.
Object adapter: when the metadata fetch fails with a request failure of status 404,
read empties the identity, returns no error and the metadata fetch is its only
remote call; any other failure of the fetch is returned as the error, data unchanged.
Invitation accepter (identity decoding to `detectorID`): when the master-account
fetch reports the detector as not owned by the caller, or succeeds with no master,
read empties the identity and returns no error; any other failure of the fetch is
returned as an error, data unchanged. -/
theorem C8_read_not_found_clears (s3 : S3Env) (o : BucketObjectData) (gd : GuardDutyEnv)
    (d : InviteAccepterData) (err : GoError) (detectorID masterID : String) :
    (s3.headObject o.bucket o.key = .error err → isRequestFailure404 err = true →
      resourceAwsS3BucketObjectRead s3 o =
        ⟨{ o with id := "" }, [Call.headObject o.bucket o.key], .ok⟩) ∧
    (s3.headObject o.bucket o.key = .error err → isRequestFailure404 err = false →
      resourceAwsS3BucketObjectRead s3 o =
        ⟨o, [Call.headObject o.bucket o.key], .fail (.remote err)⟩) ∧
    (decodeGuardDutyInviteAccepterID d.id = .ok (detectorID, masterID) →
      (gd.getMasterAccount detectorID = .error err →
        isAWSErr err ErrCodeBadRequestException notOwnedMessage = true →
        resourceAwsGuardDutyInviteAccepterRead gd d =
          ⟨{ d with id := "" }, [Call.getMasterAccount detectorID], .ok⟩) ∧
      (gd.getMasterAccount detectorID = .ok none →
        resourceAwsGuardDutyInviteAccepterRead gd d =
          ⟨{ d with id := "" }, [Call.getMasterAccount detectorID], .ok⟩) ∧
      (gd.getMasterAccount detectorID = .error err →
        isAWSErr err ErrCodeBadRequestException notOwnedMessage = false →
        resourceAwsGuardDutyInviteAccepterRead gd d =
          ⟨d, [Call.getMasterAccount detectorID], .fail (.readingMaster d.id err)⟩)) := by
  refine ⟨?_, ?_, ?_⟩
  · intro hh h404
    simp [resourceAwsS3BucketObjectRead, hh, h404]
  · intro hh h404
    simp [resourceAwsS3BucketObjectRead, hh, h404]
  · intro hdec
    refine ⟨?_, ?_, ?_⟩
    · intro hm herr
      simp [resourceAwsGuardDutyInviteAccepterRead, hdec, hm, herr]
    · intro hm
      simp [resourceAwsGuardDutyInviteAccepterRead, hdec, hm]
    · intro hm herr
      simp [resourceAwsGuardDutyInviteAccepterRead, hdec, hm, herr]

theorem C8_read_not_found_clears_witness :
    resourceAwsS3BucketObjectRead goneS3 { id := "k", bucket := "b", key := "k", etag := "abc" }
      = ⟨{ id := "", bucket := "b", key := "k", etag := "abc" }, [Call.headObject "b" "k"], .ok⟩ ∧
    resourceAwsS3BucketObjectRead forbiddenS3 { id := "k", bucket := "b", key := "k" }
      = ⟨{ id := "k", bucket := "b", key := "k" }, [Call.headObject "b" "k"],
          .fail (.remote (.aws ⟨"Forbidden", "Forbidden", some 403⟩))⟩ ∧
    resourceAwsGuardDutyInviteAccepterRead notOwnedGuardDuty
        ⟨"d41:123456789012", "d41", "123456789012"⟩
      = ⟨⟨"", "d41", "123456789012"⟩, [Call.getMasterAccount "d41"], .ok⟩ ∧
    resourceAwsGuardDutyInviteAccepterRead quietGuardDuty
        ⟨"d41:123456789012", "d41", "123456789012"⟩
      = ⟨⟨"", "d41", "123456789012"⟩, [Call.getMasterAccount "d41"], .ok⟩ :=
  ⟨(C8_read_not_found_clears goneS3 { id := "k", bucket := "b", key := "k", etag := "abc" }
      notOwnedGuardDuty ⟨"d41:123456789012", "d41", "123456789012"⟩
      (.aws ⟨"NotFound", "Not Found", some 404⟩) "d41" "123456789012").1 rfl rfl,
   (C8_read_not_found_clears forbiddenS3 { id := "k", bucket := "b", key := "k" }
      notOwnedGuardDuty ⟨"d41:123456789012", "d41", "123456789012"⟩
      (.aws ⟨"Forbidden", "Forbidden", some 403⟩) "d41" "123456789012").2.1 rfl rfl,
   ((C8_read_not_found_clears goneS3 { bucket := "b", key := "k" }
      notOwnedGuardDuty ⟨"d41:123456789012", "d41", "123456789012"⟩
      (.aws ⟨"BadRequestException",
        "The request is rejected because the input detectorId is not owned by the current account.",
        some 400⟩) "d41" "123456789012").2.2 rfl).1 rfl rfl,
   ((C8_read_not_found_clears goneS3 { bucket := "b", key := "k" }
      quietGuardDuty ⟨"d41:123456789012", "d41", "123456789012"⟩
      (.other "") "d41" "123456789012").2.2 rfl).2.1 rfl⟩

/-! ## Object adapter read: KMS key rule, etag and version -/

theorem readAfterKms_kms_key_id (env : S3Env) (d : BucketObjectData) (resp : HeadObjectOutput)
    (calls : List Call) :
    (readAfterKms env d resp calls).d.kms_key_id = d.kms_key_id := by
  unfold readAfterKms
  split
  · rfl
  · dsimp only
    split
    · split <;> split <;> rfl
    · split <;> rfl

theorem readAfterKms_ok (env : S3Env) (d : BucketObjectData) (resp : HeadObjectOutput)
    (calls : List Call) (h : (readAfterKms env d resp calls).result = .ok) :
    ∃ etag, resp.ETag = some etag ∧
      (readAfterKms env d resp calls).d.etag = stringsTrim etag '"' ∧
      (readAfterKms env d resp calls).d.version_id = d.version_id ∧
      (readAfterKms env d resp calls).d.id = d.id := by
  unfold readAfterKms at h ⊢
  split at h
  · simp at h
  · rename_i etag hetag
    refine ⟨etag, hetag, ?_⟩
    simp only [hetag]
    split
    · split <;> split <;> exact ⟨rfl, rfl, rfl⟩
    · split <;> exact ⟨rfl, rfl, rfl⟩

/-- C9 as stated fails: `kms_key_id` is configured with the ARN of the default key,
the metadata response reports that very key and the default-key lookup returns the
same ARN; the read succeeds and `kms_key_id` still holds the ARN afterwards, it is
not unset. -/
theorem C9_kms_key_counterexample :
    (resourceAwsS3BucketObjectRead defaultKeyS3
      { id := "k", bucket := "b", key := "k", content := "hi",
        kms_key_id := "arn:aws:kms:us-east-1:111122223333:key/default" }).result = .ok ∧
    (resourceAwsS3BucketObjectRead defaultKeyS3
      { id := "k", bucket := "b", key := "k", content := "hi",
        kms_key_id := "arn:aws:kms:us-east-1:111122223333:key/default" }).d.kms_key_id
      = "arn:aws:kms:us-east-1:111122223333:key/default" ∧
    (resourceAwsS3BucketObjectRead defaultKeyS3
      { id := "k", bucket := "b", key := "k", content := "hi",
        kms_key_id := "arn:aws:kms:us-east-1:111122223333:key/default" }).d.kms_key_id ≠ "" := by
  refine ⟨rfl, rfl, ?_⟩
  have h : (resourceAwsS3BucketObjectRead defaultKeyS3
      { id := "k", bucket := "b", key := "k", content := "hi",
        kms_key_id := "arn:aws:kms:us-east-1:111122223333:key/default" }).d.kms_key_id
      = "arn:aws:kms:us-east-1:111122223333:key/default" := rfl
  rw [h]
  decide

/-- C9 (amended): KMS key rule of read. When the metadata response reports a KMS key
id `k` and the default-key lookup returns ARN `a`: if `k = a`, read leaves
`kms_key_id` as it was before the read (unset if it was unset); if `k` differs from
`a`, `kms_key_id` equals `k` after the read; the lookup is for `alias/aws/s3`. When
the response reports no KMS key id, no default-key lookup is made and `kms_key_id`
is left as it was. -/
theorem C9_kms_key_rule (env : S3Env) (d : BucketObjectData) (resp : HeadObjectOutput)
    (k a : String) (hhead : env.headObject d.bucket d.key = .ok resp) :
    (resp.SSEKMSKeyId = some k →
      env.describeKey "alias/aws/s3" = .ok ⟨some ⟨some a⟩⟩ →
      (k = a → (resourceAwsS3BucketObjectRead env d).d.kms_key_id = d.kms_key_id) ∧
      (k = a → d.kms_key_id = "" → (resourceAwsS3BucketObjectRead env d).d.kms_key_id = "") ∧
      (k ≠ a → (resourceAwsS3BucketObjectRead env d).d.kms_key_id = k)) ∧
    (resp.SSEKMSKeyId = none →
      (∀ x, Call.describeKey x ∉ (resourceAwsS3BucketObjectRead env d).calls) ∧
      (resourceAwsS3BucketObjectRead env d).d.kms_key_id = d.kms_key_id) := by
  constructor
  · intro hk hdesc
    have heq : k = a → (resourceAwsS3BucketObjectRead env d).d.kms_key_id = d.kms_key_id := by
      intro hka
      simp [resourceAwsS3BucketObjectRead, hhead, hk, hdesc, hka, readAfterKms_kms_key_id]
    refine ⟨heq, ?_, ?_⟩
    · intro hka hunset
      rw [heq hka, hunset]
    · intro hka
      simp [resourceAwsS3BucketObjectRead, hhead, hk, hdesc, hka, readAfterKms_kms_key_id]
  · intro hk
    constructor
    · intro x hx
      simp only [resourceAwsS3BucketObjectRead, hhead, hk] at hx
      rcases readAfterKms_calls _ _ _ _ _ hx with h | h
      · simp at h
      · simp at h
    · simp [resourceAwsS3BucketObjectRead, hhead, hk, readAfterKms_kms_key_id]

theorem C9_kms_key_rule_witness :
    (resourceAwsS3BucketObjectRead defaultKeyS3 { id := "k", bucket := "b", key := "k" }).result
      = .ok ∧
    (resourceAwsS3BucketObjectRead defaultKeyS3
      { id := "k", bucket := "b", key := "k" }).d.kms_key_id = "" ∧
    (resourceAwsS3BucketObjectRead customKeyS3
      { id := "k", bucket := "b", key := "k" }).d.kms_key_id
        = "arn:aws:kms:us-east-1:111122223333:key/custom" ∧
    (∀ x, Call.describeKey x ∉
      (resourceAwsS3BucketObjectRead sampleS3 { id := "k", bucket := "b", key := "k" }).calls) :=
  ⟨rfl,
   ((C9_kms_key_rule defaultKeyS3 { id := "k", bucket := "b", key := "k" }
      { ETag := some "\"abc\"", ServerSideEncryption := some "aws:kms",
        SSEKMSKeyId := some "arn:aws:kms:us-east-1:111122223333:key/default" }
      "arn:aws:kms:us-east-1:111122223333:key/default"
      "arn:aws:kms:us-east-1:111122223333:key/default" rfl).1 rfl rfl).2.1 rfl rfl,
   ((C9_kms_key_rule customKeyS3 { id := "k", bucket := "b", key := "k" }
      { ETag := some "\"abc\"", ServerSideEncryption := some "aws:kms",
        SSEKMSKeyId := some "arn:aws:kms:us-east-1:111122223333:key/custom" }
      "arn:aws:kms:us-east-1:111122223333:key/custom"
      "arn:aws:kms:us-east-1:111122223333:key/default" rfl).1 rfl rfl).2.2 (by decide),
   ((C9_kms_key_rule sampleS3 { id := "k", bucket := "b", key := "k" }
      { ETag := some "\"abc\"", VersionId := some "v1" } "" "" rfl).2 rfl).1⟩

theorem read_ok_cases (env : S3Env) (d : BucketObjectData)
    (h : (resourceAwsS3BucketObjectRead env d).result = .ok) :
    (∃ err, env.headObject d.bucket d.key = .error err ∧ isRequestFailure404 err = true ∧
      (resourceAwsS3BucketObjectRead env d).d = { d with id := "" }) ∨
    (∃ resp etag, env.headObject d.bucket d.key = .ok resp ∧ resp.ETag = some etag ∧
      (resourceAwsS3BucketObjectRead env d).d.etag = stringsTrim etag '"' ∧
      (resourceAwsS3BucketObjectRead env d).d.version_id = awsStringValue resp.VersionId ∧
      (resourceAwsS3BucketObjectRead env d).d.id = d.id) := by
  unfold resourceAwsS3BucketObjectRead at h ⊢
  dsimp only at h ⊢
  cases hh : env.headObject d.bucket d.key with
  | error err =>
    simp only [hh] at h ⊢
    by_cases h404 : isRequestFailure404 err = true
    · left
      exact ⟨err, rfl, h404, by simp [h404]⟩
    · simp [h404] at h
  | ok resp =>
    simp only [hh] at h ⊢
    right
    cases hk : resp.SSEKMSKeyId with
    | none =>
      simp only [hk] at h ⊢
      obtain ⟨etag, he, h1, h2, h3⟩ := readAfterKms_ok _ _ _ _ h
      exact ⟨resp, etag, rfl, he, h1, h2, h3⟩
    | some reported =>
      simp only [hk] at h ⊢
      cases hd : env.describeKey "alias/aws/s3" with
      | error e => simp [hd] at h
      | ok kmsresp =>
        simp only [hd] at h ⊢
        cases ha : kmsresp.KeyMetadata.bind (·.Arn) with
        | none => simp [ha] at h
        | some arn =>
          simp only [ha] at h ⊢
          obtain ⟨etag, he, h1, h2, h3⟩ := readAfterKms_ok _ _ _ _ h
          refine ⟨resp, etag, rfl, he, h1, ?_, ?_⟩
          · rw [h2]; split <;> rfl
          · rw [h3]; split <;> rfl

/-- C10 as stated fails. A put succeeds whose upload response carries ETag `"new"`
and version `v2`, yet the state afterwards holds the etag `other` and the version
`v3` of the follow-up read; and a put succeeds whose follow-up read meets a 404, after
which the identity is empty, not the key. -/
theorem C10_put_records_counterexample :
    ((resourceAwsS3BucketObjectPut overwrittenS3
        { bucket := "b", key := "k", content := "hi" }).result = .ok ∧
      overwrittenS3.putObject (putInput overwrittenS3
        { bucket := "b", key := "k", content := "hi" } (stringBytes "hi"))
          = .ok ⟨some "\"new\"", some "v2"⟩ ∧
      (resourceAwsS3BucketObjectPut overwrittenS3
        { bucket := "b", key := "k", content := "hi" }).d.etag = "other" ∧
      (resourceAwsS3BucketObjectPut overwrittenS3
        { bucket := "b", key := "k", content := "hi" }).d.etag ≠ stringsTrim "\"new\"" '"' ∧
      (resourceAwsS3BucketObjectPut overwrittenS3
        { bucket := "b", key := "k", content := "hi" }).d.version_id ≠ "v2") ∧
    ((resourceAwsS3BucketObjectPut uploadedThenGoneS3
        { bucket := "b", key := "k", content := "hi" }).result = .ok ∧
      (resourceAwsS3BucketObjectPut uploadedThenGoneS3
        { bucket := "b", key := "k", content := "hi" }).d.id ≠ "k") := by
  have e1 : (resourceAwsS3BucketObjectPut overwrittenS3
      { bucket := "b", key := "k", content := "hi" }).d.etag = "other" := rfl
  have e2 : (resourceAwsS3BucketObjectPut overwrittenS3
      { bucket := "b", key := "k", content := "hi" }).d.version_id = "v3" := rfl
  have e3 : (resourceAwsS3BucketObjectPut uploadedThenGoneS3
      { bucket := "b", key := "k", content := "hi" }).d.id = "" := rfl
  have e4 : stringsTrim "\"new\"" '"' = "new" := rfl
  refine ⟨⟨rfl, rfl, e1, ?_, ?_⟩, rfl, ?_⟩
  · rw [e1, e4]; decide
  · rw [e2]; decide
  · rw [e3]; decide

/-- C10 (amended): what a successful put leaves in state. A successful put has
resolved a body, issued the upload first and received a response with an ETag.
If the follow-up read's metadata fetch succeeded, then afterwards `etag` is the ETag
of that metadata response with its surrounding double quotes stripped, `version_id`
is that response's version id and the identity is the key; these are the upload
response's values whenever the metadata response reports the same ETag and version
id. If the metadata fetch met a 404, the identity is empty and `etag`, `version_id`
are those of the upload response. In neither case do `etag` and `version_id` depend
on the values held before the put. -/
theorem C10_put_records (env : S3Env) (d : BucketObjectData)
    (hok : (resourceAwsS3BucketObjectPut env d).result = .ok) :
    ∃ body resp etag,
      putBody env d = .ok body ∧
      env.putObject (putInput env d body) = .ok resp ∧ resp.ETag = some etag ∧
      (resourceAwsS3BucketObjectPut env d).calls.head? =
        some (Call.putObject (putInput env d body)) ∧
      ((∃ h hetag, env.headObject d.bucket d.key = .ok h ∧ h.ETag = some hetag ∧
          (resourceAwsS3BucketObjectPut env d).d.etag = stringsTrim hetag '"' ∧
          (resourceAwsS3BucketObjectPut env d).d.version_id = awsStringValue h.VersionId ∧
          (resourceAwsS3BucketObjectPut env d).d.id = d.key ∧
          (h.ETag = resp.ETag → h.VersionId = resp.VersionId →
            (resourceAwsS3BucketObjectPut env d).d.etag = stringsTrim etag '"' ∧
            (resourceAwsS3BucketObjectPut env d).d.version_id
              = awsStringValue resp.VersionId)) ∨
       (∃ err, env.headObject d.bucket d.key = .error err ∧ isRequestFailure404 err = true ∧
          (resourceAwsS3BucketObjectPut env d).d.id = "" ∧
          (resourceAwsS3BucketObjectPut env d).d.etag = stringsTrim etag '"' ∧
          (resourceAwsS3BucketObjectPut env d).d.version_id
            = awsStringValue resp.VersionId)) := by
  cases hb : putBody env d with
  | error e => simp [resourceAwsS3BucketObjectPut, hb] at hok
  | ok body =>
    by_cases ht : d.tags ≠ [] ∧ env.isChinaCloud = true
    · simp [resourceAwsS3BucketObjectPut, hb, ht] at hok
    · cases hp : env.putObject (putInput env d body) with
      | error e => simp [resourceAwsS3BucketObjectPut, hb, ht, hp] at hok
      | ok resp =>
        cases he : resp.ETag with
        | none => simp [resourceAwsS3BucketObjectPut, hb, ht, hp, he] at hok
        | some etag =>
          have hrun : resourceAwsS3BucketObjectPut env d =
              ⟨(resourceAwsS3BucketObjectRead env
                  { d with etag := stringsTrim etag '"',
                           version_id := awsStringValue resp.VersionId, id := d.key }).d,
               Call.putObject (putInput env d body) ::
                (resourceAwsS3BucketObjectRead env
                  { d with etag := stringsTrim etag '"',
                           version_id := awsStringValue resp.VersionId, id := d.key }).calls,
               (resourceAwsS3BucketObjectRead env
                  { d with etag := stringsTrim etag '"',
                           version_id := awsStringValue resp.VersionId, id := d.key }).result⟩ := by
            simp only [resourceAwsS3BucketObjectPut, hb, ht, hp, he, if_false]
          rw [hrun] at hok ⊢
          refine ⟨body, resp, etag, rfl, hp, he, rfl, ?_⟩
          rcases read_ok_cases env _ hok with ⟨err, hh, h404, hd⟩ | ⟨h, hetag, hh, hhe, h1, h2, h3⟩
          · right
            refine ⟨err, hh, h404, ?_⟩
            simp only [hd]
            exact ⟨trivial, trivial, trivial⟩
          · left
            refine ⟨h, hetag, hh, hhe, h1, h2, h3, ?_⟩
            intro heq hveq
            rw [hhe, he] at heq
            have hee : hetag = etag := Option.some.inj heq
            subst hee
            exact ⟨h1, h2.trans (congrArg awsStringValue hveq)⟩

theorem C10_put_records_witness :
    (resourceAwsS3BucketObjectPut sampleS3
      { bucket := "b", key := "k", content := "hi", etag := "stale", version_id := "v0" }).d
      = { id := "k", bucket := "b", key := "k", content := "hi", etag := "abc",
          version_id := "v1", storage_class := "STANDARD" } ∧
    ∃ body resp etag,
      putBody sampleS3
        { bucket := "b", key := "k", content := "hi", etag := "stale", version_id := "v0" }
        = .ok body ∧
      sampleS3.putObject (putInput sampleS3
        { bucket := "b", key := "k", content := "hi", etag := "stale", version_id := "v0" }
        body) = .ok resp ∧ resp.ETag = some etag :=
  ⟨rfl,
   match C10_put_records sampleS3
      { bucket := "b", key := "k", content := "hi", etag := "stale", version_id := "v0" }
      rfl with
   | ⟨body, resp, etag, h1, h2, h3, _⟩ => ⟨body, resp, etag, h1, h2, h3⟩⟩

/-! ## State after a failure -/

theorem readAfterKms_d (env : S3Env) (d : BucketObjectData) (resp : HeadObjectOutput)
    (calls : List Call) :
    (readAfterKms env d resp calls).d =
      { d with etag := (readAfterKms env d resp calls).d.etag,
               storage_class := (readAfterKms env d resp calls).d.storage_class,
               tags := (readAfterKms env d resp calls).d.tags } := by
  unfold readAfterKms
  split
  · rfl
  · dsimp only
    split
    · split <;> split <;> rfl
    · split <;> rfl

theorem readAfterKms_fail_tags (env : S3Env) (d : BucketObjectData) (resp : HeadObjectOutput)
    (calls : List Call) (e : Failure) (h : (readAfterKms env d resp calls).result = .fail e) :
    (readAfterKms env d resp calls).d.tags = d.tags := by
  unfold readAfterKms at h ⊢
  cases hetag : resp.ETag with
  | none => simp [hetag] at h
  | some etag =>
    cases hr : env.isChinaCloud with
    | true => simp [hetag, hr] at h
    | false =>
      cases hs : resp.StorageClass with
      | none =>
        cases ht : env.getObjectTagging d.bucket d.key with
        | error err => simp [hetag, hr, hs, ht]
        | ok tagSet => simp [hetag, hr, hs, ht] at h
      | some sc =>
        cases ht : env.getObjectTagging d.bucket d.key with
        | error err => simp [hetag, hr, hs, ht]
        | ok tagSet => simp [hetag, hr, hs, ht] at h

theorem accepterRead_fail (env : GuardDutyEnv) (d : InviteAccepterData) (e : Failure)
    (h : (resourceAwsGuardDutyInviteAccepterRead env d).result = .fail e) :
    (resourceAwsGuardDutyInviteAccepterRead env d).d = d := by
  unfold resourceAwsGuardDutyInviteAccepterRead at h ⊢
  split
  · rfl
  · rename_i hdec
    simp only [hdec] at h
    split
    · rename_i hm
      simp only [hm] at h
      split
      · rename_i herr
        simp [herr] at h
      · rfl
    · rename_i hm
      simp [hm] at h
    · rename_i hm
      simp [hm] at h

theorem objectRead_fail_head_error (env : S3Env) (o : BucketObjectData) (e : Failure)
    (err : GoError) (h : (resourceAwsS3BucketObjectRead env o).result = .fail e)
    (hh : env.headObject o.bucket o.key = .error err) :
    (resourceAwsS3BucketObjectRead env o).d = o := by
  unfold resourceAwsS3BucketObjectRead at h ⊢
  simp only [hh] at h ⊢
  by_cases h404 : isRequestFailure404 err = true
  · simp [h404] at h
  · simp [h404]

theorem objectRead_fail_head_ok (env : S3Env) (o : BucketObjectData) (e : Failure)
    (resp : HeadObjectOutput) (h : (resourceAwsS3BucketObjectRead env o).result = .fail e)
    (hh : env.headObject o.bucket o.key = .ok resp) :
    (resourceAwsS3BucketObjectRead env o).d =
      { mirrorMetadata o resp with
        kms_key_id := (resourceAwsS3BucketObjectRead env o).d.kms_key_id
        etag := (resourceAwsS3BucketObjectRead env o).d.etag
        storage_class := (resourceAwsS3BucketObjectRead env o).d.storage_class } := by
  unfold resourceAwsS3BucketObjectRead at h ⊢
  simp only [hh] at h ⊢
  cases hk : resp.SSEKMSKeyId with
  | none =>
    simp only [hk] at h ⊢
    have hd := readAfterKms_d env (mirrorMetadata o resp) resp [Call.headObject o.bucket o.key]
    have ht := readAfterKms_fail_tags env (mirrorMetadata o resp) resp
      [Call.headObject o.bucket o.key] e h
    unfold mirrorMetadata at hd ht ⊢
    generalize (readAfterKms env _ resp [Call.headObject o.bucket o.key]).d = R at hd ht ⊢
    cases R
    simp only [BucketObjectData.mk.injEq] at hd ⊢
    simp_all
  | some reported =>
    simp only [hk] at h ⊢
    cases hdk : env.describeKey "alias/aws/s3" with
    | error derr => simp [hdk, mirrorMetadata]
    | ok kmsresp =>
      simp only [hdk] at h ⊢
      cases ha : kmsresp.KeyMetadata.bind (·.Arn) with
      | none => simp [ha] at h
      | some arn =>
        simp only [ha] at h ⊢
        by_cases hne : reported = arn
        · simp only [hne, ne_eq, not_true_eq_false, if_false] at h ⊢
          have hd := readAfterKms_d env (mirrorMetadata o resp) resp
            [Call.headObject o.bucket o.key, Call.describeKey "alias/aws/s3"]
          have ht := readAfterKms_fail_tags env (mirrorMetadata o resp) resp
            [Call.headObject o.bucket o.key, Call.describeKey "alias/aws/s3"] e h
          unfold mirrorMetadata at hd ht ⊢
          generalize (readAfterKms env _ resp
            [Call.headObject o.bucket o.key, Call.describeKey "alias/aws/s3"]).d = R at hd ht ⊢
          cases R
          simp only [BucketObjectData.mk.injEq] at hd ⊢
          simp_all
        · simp only [ne_eq, hne, not_false_eq_true, if_true] at h ⊢
          have hd := readAfterKms_d env { mirrorMetadata o resp with kms_key_id := reported } resp
            [Call.headObject o.bucket o.key, Call.describeKey "alias/aws/s3"]
          have ht := readAfterKms_fail_tags env
            { mirrorMetadata o resp with kms_key_id := reported } resp
            [Call.headObject o.bucket o.key, Call.describeKey "alias/aws/s3"] e h
          unfold mirrorMetadata at hd ht ⊢
          generalize (readAfterKms env _ resp
            [Call.headObject o.bucket o.key, Call.describeKey "alias/aws/s3"]).d = R at hd ht ⊢
          cases R
          simp only [BucketObjectData.mk.injEq] at hd ⊢
          simp_all

theorem accepterCreate_fail (env : GuardDutyEnv) (d : InviteAccepterData) (e : Failure)
    (h : (resourceAwsGuardDutyInviteAccepterCreate env d).result = .fail e) :
    (resourceAwsGuardDutyInviteAccepterCreate env d).d = d ∨
    (∃ inv, env.acceptInvitation d.detector_id inv d.master_id = none ∧
      (resourceAwsGuardDutyInviteAccepterCreate env d).d =
        { d with id := inviteAccepterID d.detector_id d.master_id }) := by
  unfold resourceAwsGuardDutyInviteAccepterCreate at h ⊢
  dsimp only at h ⊢
  generalize resourceRetry (retryFunc d.detector_id d.master_id) "" none env.listings = t at h ⊢
  obtain ⟨inv, cs, r⟩ := t
  cases r with
  | some err => left; rfl
  | none =>
    dsimp only at h ⊢
    cases hacc : env.acceptInvitation d.detector_id inv d.master_id with
    | some err => left; simp [hacc]
    | none =>
      right
      simp only [hacc] at h ⊢
      exact ⟨inv, hacc, accepterRead_fail env _ e h⟩

theorem objectPut_fail (env : S3Env) (o : BucketObjectData) (e : Failure)
    (h : (resourceAwsS3BucketObjectPut env o).result = .fail e) :
    (resourceAwsS3BucketObjectPut env o).d = o ∨
    (∃ body resp etag,
      putBody env o = .ok body ∧
      env.putObject (putInput env o body) = .ok resp ∧ resp.ETag = some etag ∧
      (resourceAwsS3BucketObjectRead env (recordUpload o etag resp)).result = .fail e ∧
      (resourceAwsS3BucketObjectPut env o).d =
        (resourceAwsS3BucketObjectRead env (recordUpload o etag resp)).d) := by
  cases hb : putBody env o with
  | error err => left; simp [resourceAwsS3BucketObjectPut, hb]
  | ok body =>
    by_cases ht : o.tags ≠ [] ∧ env.isChinaCloud = true
    · left; simp [resourceAwsS3BucketObjectPut, hb, ht]
    · cases hp : env.putObject (putInput env o body) with
      | error err => left; simp [resourceAwsS3BucketObjectPut, hb, ht, hp]
      | ok resp =>
        cases he : resp.ETag with
        | none => simp [resourceAwsS3BucketObjectPut, hb, ht, hp, he] at h
        | some etag =>
          have hrun : resourceAwsS3BucketObjectPut env o =
              ⟨(resourceAwsS3BucketObjectRead env (recordUpload o etag resp)).d,
               Call.putObject (putInput env o body) ::
                (resourceAwsS3BucketObjectRead env (recordUpload o etag resp)).calls,
               (resourceAwsS3BucketObjectRead env (recordUpload o etag resp)).result⟩ := by
            simp only [resourceAwsS3BucketObjectPut, hb, ht, hp, he, if_false, recordUpload]
          right
          rw [hrun] at h ⊢
          exact ⟨body, resp, etag, rfl, hp, he, h, rfl⟩

/-- C11 as stated fails on the cases it names. An object read whose metadata fetch
succeeds and whose default-key lookup fails returns the error with `content_type`
and `version_id` already mirrored from the metadata response; likewise when the tag
fetch fails. A put whose upload succeeds and whose follow-up read fails returns the
error with the identity set to the key and the upload's etag and version id recorded.
In each case the data after the operation differs from the data before it. -/
theorem C11_no_partial_state_counterexample :
    ((resourceAwsS3BucketObjectRead kmsLookupFailsS3
        { id := "k", bucket := "b", key := "k" }).result =
        .fail (.describingKey (.aws ⟨"AccessDeniedException", "not authorized", some 400⟩)) ∧
      (resourceAwsS3BucketObjectRead kmsLookupFailsS3
        { id := "k", bucket := "b", key := "k" }).d =
        { id := "k", bucket := "b", key := "k", content_type := "text/plain",
          version_id := "v7" } ∧
      (resourceAwsS3BucketObjectRead kmsLookupFailsS3
        { id := "k", bucket := "b", key := "k" }).d ≠ { id := "k", bucket := "b", key := "k" }) ∧
    ((resourceAwsS3BucketObjectRead tagFetchFailsS3
        { id := "k", bucket := "b", key := "k" }).result =
        .fail (.gettingTags "b" "k" (.aws ⟨"AccessDenied", "Access Denied", some 403⟩)) ∧
      (resourceAwsS3BucketObjectRead tagFetchFailsS3
        { id := "k", bucket := "b", key := "k" }).d ≠ { id := "k", bucket := "b", key := "k" }) ∧
    ((resourceAwsS3BucketObjectPut uploadedThenForbiddenS3
        { bucket := "b", key := "k", content := "hi" }).result =
        .fail (.remote (.aws ⟨"Forbidden", "Forbidden", some 403⟩)) ∧
      (resourceAwsS3BucketObjectPut uploadedThenForbiddenS3
        { bucket := "b", key := "k", content := "hi" }).d =
        { id := "k", bucket := "b", key := "k", content := "hi", etag := "new",
          version_id := "v2" } ∧
      (resourceAwsS3BucketObjectPut uploadedThenForbiddenS3
        { bucket := "b", key := "k", content := "hi" }).d ≠
        { bucket := "b", key := "k", content := "hi" }) := by
  have r1 : (resourceAwsS3BucketObjectRead kmsLookupFailsS3
      { id := "k", bucket := "b", key := "k" }).d =
      { id := "k", bucket := "b", key := "k", content_type := "text/plain",
        version_id := "v7" } := rfl
  have r2 : (resourceAwsS3BucketObjectRead tagFetchFailsS3
      { id := "k", bucket := "b", key := "k" }).d =
      { id := "k", bucket := "b", key := "k", content_type := "text/plain",
        version_id := "v7", etag := "abc", storage_class := "STANDARD" } := rfl
  have r3 : (resourceAwsS3BucketObjectPut uploadedThenForbiddenS3
      { bucket := "b", key := "k", content := "hi" }).d =
      { id := "k", bucket := "b", key := "k", content := "hi", etag := "new",
        version_id := "v2" } := rfl
  refine ⟨⟨rfl, r1, ?_⟩, ⟨rfl, ?_⟩, ⟨rfl, r3, ?_⟩⟩
  · rw [r1]; decide
  · rw [r2]; decide
  · rw [r3]; decide

theorem accepterRead_fail_kind (env : GuardDutyEnv) (d : InviteAccepterData) (e : Failure)
    (h : (resourceAwsGuardDutyInviteAccepterRead env d).result = .fail e) :
    (∃ id, e = .invalidId id) ∨ (∃ id err, e = .readingMaster id err) := by
  unfold resourceAwsGuardDutyInviteAccepterRead at h
  unfold decodeGuardDutyInviteAccepterID at h
  split at h
  · rename_i err hdec
    split at hdec
    · simp at hdec
    · simp at hdec h
      left
      exact ⟨_, by rw [← h, ← hdec]⟩
  · split at h
    · split at h
      · simp at h
      · simp at h
        right
        exact ⟨_, _, h.symm⟩
    · simp at h
    · simp at h

theorem readAfterKms_fail_kind (env : S3Env) (d : BucketObjectData) (resp : HeadObjectOutput)
    (calls : List Call) (e : Failure) (h : (readAfterKms env d resp calls).result = .fail e) :
    ∃ b k err, e = .gettingTags b k err := by
  unfold readAfterKms at h
  split at h
  · simp at h
  · dsimp only at h
    split at h
    · split at h
      · simp at h
        exact ⟨_, _, _, h.symm⟩
      · simp at h
    · simp at h

theorem objectRead_fail_kind (env : S3Env) (o : BucketObjectData) (e : Failure)
    (h : (resourceAwsS3BucketObjectRead env o).result = .fail e) :
    (∃ err, e = .remote err) ∨ (∃ err, e = .describingKey err) ∨
      (∃ b k err, e = .gettingTags b k err) := by
  unfold resourceAwsS3BucketObjectRead at h
  dsimp only at h
  split at h
  · split at h
    · simp at h
    · simp at h
      exact Or.inl ⟨_, h.symm⟩
  · split at h
    · exact Or.inr (Or.inr (readAfterKms_fail_kind _ _ _ _ _ h))
    · split at h
      · simp at h
        exact Or.inr (Or.inl ⟨_, h.symm⟩)
      · split at h
        · simp at h
        · exact Or.inr (Or.inr (readAfterKms_fail_kind _ _ _ _ _ h))

theorem accepterDelete_d (env : GuardDutyEnv) (d : InviteAccepterData) :
    (resourceAwsGuardDutyInviteAccepterDelete env d).d = d := by
  unfold resourceAwsGuardDutyInviteAccepterDelete
  split
  · rfl
  · split <;> rfl

theorem objectDelete_d (env : S3Env) (o : BucketObjectData) :
    (resourceAwsS3BucketObjectDelete env o).d = o := by
  unfold resourceAwsS3BucketObjectDelete
  dsimp only
  split
  · split
    · rfl
    · rfl
  · split <;> rfl

theorem retryFunc_kind (det m s : String) (a : List (Except GoError (List Invitation))) :
    (retryFunc det m s a).2.2 = none ∨
    (∃ err, (retryFunc det m s a).2.2 = some (.nonRetryable (.listing err))) ∨
    (retryFunc det m s a).2.2 = some (.retryable (.notFound det m)) := by
  unfold retryFunc
  generalize listInvitationsPages m s 0 a = t
  obtain ⟨inv, cs, r⟩ := t
  cases r with
  | some err => exact Or.inr (Or.inl ⟨err, rfl⟩)
  | none =>
    dsimp only
    split
    · exact Or.inr (Or.inr rfl)
    · exact Or.inl rfl

theorem resourceRetry_fail_kind (det m : String) :
    ∀ (attempts : List (List (Except GoError (List Invitation)))) (s : String)
      (last : Option Failure) (err : Failure),
      (∀ l, last = some l → isAccepterReadFailure l = false) →
      (resourceRetry (retryFunc det m) s last attempts).2.2 = some err →
      isAccepterReadFailure err = false := by
  intro attempts
  induction attempts with
  | nil =>
    intro s last err hlast h
    cases last with
    | none =>
      simp [resourceRetry] at h
      subst h
      rfl
    | some l =>
      simp [resourceRetry] at h
      subst h
      exact hlast l rfl
  | cons a rest ih =>
    intro s last err hlast h
    unfold resourceRetry at h
    have hk := retryFunc_kind det m s a
    generalize retryFunc det m s a = t at h hk
    obtain ⟨s1, cs, r⟩ := t
    rcases hk with hk | ⟨lerr, hk⟩ | hk
    · simp only at hk
      subst hk
      simp at h
    · simp only at hk
      subst hk
      simp at h
      subst h
      rfl
    · simp only at hk
      subst hk
      dsimp only at h
      exact ih s1 (some (.notFound det m)) err
        (by intro l hl; cases hl; rfl) h

theorem accepterCreate_fail_own (env : GuardDutyEnv) (d : InviteAccepterData) (e : Failure)
    (h : (resourceAwsGuardDutyInviteAccepterCreate env d).result = .fail e)
    (hkind : isAccepterReadFailure e = false) :
    (resourceAwsGuardDutyInviteAccepterCreate env d).d = d := by
  unfold resourceAwsGuardDutyInviteAccepterCreate at h ⊢
  dsimp only at h ⊢
  generalize resourceRetry (retryFunc d.detector_id d.master_id) "" none env.listings = t at h ⊢
  obtain ⟨inv, cs, r⟩ := t
  cases r with
  | some err => rfl
  | none =>
    dsimp only at h ⊢
    cases hacc : env.acceptInvitation d.detector_id inv d.master_id with
    | some err => simp
    | none =>
      simp only [hacc] at h
      rcases accepterRead_fail_kind env _ e h with ⟨id, hid⟩ | ⟨id, err, hid⟩ <;>
        (subst hid; simp [isAccepterReadFailure] at hkind)

theorem accepterCreate_fail_read (env : GuardDutyEnv) (d : InviteAccepterData) (e : Failure)
    (h : (resourceAwsGuardDutyInviteAccepterCreate env d).result = .fail e)
    (hkind : isAccepterReadFailure e = true) :
    (resourceAwsGuardDutyInviteAccepterCreate env d).d =
      { d with id := inviteAccepterID d.detector_id d.master_id } := by
  have hretry := resourceRetry_fail_kind d.detector_id d.master_id env.listings "" none
  unfold resourceAwsGuardDutyInviteAccepterCreate at h ⊢
  dsimp only at h ⊢
  generalize resourceRetry (retryFunc d.detector_id d.master_id) "" none env.listings = t
    at h hretry ⊢
  obtain ⟨inv, cs, r⟩ := t
  cases r with
  | some err =>
    simp at h
    subst h
    have := hretry err (by intro l hl; cases hl) rfl
    rw [this] at hkind
    cases hkind
  | none =>
    dsimp only at h ⊢
    cases hacc : env.acceptInvitation d.detector_id inv d.master_id with
    | some err =>
      simp [hacc] at h
      subst h
      simp [isAccepterReadFailure] at hkind
    | none =>
      simp only [hacc] at h ⊢
      exact accepterRead_fail env _ e h

theorem putBody_error_kind (env : S3Env) (d : BucketObjectData) (err : Failure)
    (h : putBody env d = .error err) : isObjectReadFailure err = false := by
  unfold putBody at h
  split at h
  · split at h
    · simp at h; subst h; rfl
    · split at h
      · simp at h; subst h; rfl
      · simp at h
  · split at h
    · simp at h
    · split at h
      · split at h
        · simp at h; subst h; rfl
        · simp at h
      · simp at h; subst h; rfl

theorem objectRead_fail_isKind (env : S3Env) (o : BucketObjectData) (e : Failure)
    (h : (resourceAwsS3BucketObjectRead env o).result = .fail e) :
    isObjectReadFailure e = true := by
  rcases objectRead_fail_kind env o e h with ⟨_, hk⟩ | ⟨_, hk⟩ | ⟨_, _, _, hk⟩ <;>
    (subst hk; rfl)

theorem objectPut_fail_own (env : S3Env) (o : BucketObjectData) (e : Failure)
    (h : (resourceAwsS3BucketObjectPut env o).result = .fail e)
    (hkind : isObjectReadFailure e = false) :
    (resourceAwsS3BucketObjectPut env o).d = o := by
  rcases objectPut_fail env o e h with hd | ⟨body, resp, etag, _, _, _, hr, _⟩
  · exact hd
  · rw [objectRead_fail_isKind env _ e hr] at hkind
    cases hkind

theorem objectPut_fail_read (env : S3Env) (o : BucketObjectData) (e : Failure)
    (h : (resourceAwsS3BucketObjectPut env o).result = .fail e)
    (hkind : isObjectReadFailure e = true) :
    ∃ body resp etag,
      putBody env o = .ok body ∧
      env.putObject (putInput env o body) = .ok resp ∧ resp.ETag = some etag ∧
      (resourceAwsS3BucketObjectRead env (recordUpload o etag resp)).result = .fail e ∧
      (resourceAwsS3BucketObjectPut env o).d =
        (resourceAwsS3BucketObjectRead env (recordUpload o etag resp)).d := by
  cases hb : putBody env o with
  | error err =>
    simp [resourceAwsS3BucketObjectPut, hb] at h
    subst h
    rw [putBody_error_kind env o err hb] at hkind
    cases hkind
  | ok body =>
    by_cases ht : o.tags ≠ [] ∧ env.isChinaCloud = true
    · simp [resourceAwsS3BucketObjectPut, hb, ht] at h
      subst h
      cases hkind
    · cases hp : env.putObject (putInput env o body) with
      | error err =>
        simp [resourceAwsS3BucketObjectPut, hb, ht, hp] at h
        subst h
        cases hkind
      | ok resp =>
        cases he : resp.ETag with
        | none => simp [resourceAwsS3BucketObjectPut, hb, ht, hp, he] at h
        | some etag =>
          have hrun : resourceAwsS3BucketObjectPut env o =
              ⟨(resourceAwsS3BucketObjectRead env (recordUpload o etag resp)).d,
               Call.putObject (putInput env o body) ::
                (resourceAwsS3BucketObjectRead env (recordUpload o etag resp)).calls,
               (resourceAwsS3BucketObjectRead env (recordUpload o etag resp)).result⟩ := by
            simp only [resourceAwsS3BucketObjectPut, hb, ht, hp, he, if_false, recordUpload]
          rw [hrun] at h ⊢
          exact ⟨body, resp, etag, rfl, hp, he, h, rfl⟩

theorem objectRead_describeKey_fails (env : S3Env) (o : BucketObjectData)
    (resp : HeadObjectOutput) (k : String) (err : GoError)
    (hh : env.headObject o.bucket o.key = .ok resp) (hk : resp.SSEKMSKeyId = some k)
    (hd : env.describeKey "alias/aws/s3" = .error err) :
    resourceAwsS3BucketObjectRead env o =
      ⟨mirrorMetadata o resp,
        [Call.headObject o.bucket o.key, Call.describeKey "alias/aws/s3"],
        .fail (.describingKey err)⟩ := by
  simp [resourceAwsS3BucketObjectRead, hh, hk, hd, mirrorMetadata]

theorem readAfterKms_tags_fail (env : S3Env) (d : BucketObjectData) (resp : HeadObjectOutput)
    (calls : List Call) (etag : String) (err : GoError)
    (he : resp.ETag = some etag) (hr : env.isChinaCloud = false)
    (ht : env.getObjectTagging d.bucket d.key = .error err) :
    readAfterKms env d resp calls =
      ⟨{ d with etag := stringsTrim etag '"',
                storage_class := resp.StorageClass.getD "STANDARD" },
        calls ++ [Call.getObjectTagging d.bucket d.key],
        .fail (.gettingTags d.bucket d.key err)⟩ := by
  unfold readAfterKms
  cases hs : resp.StorageClass with
  | none => simp [he, hr, hs, ht]
  | some sc => simp [he, hr, hs, ht]

theorem objectRead_tags_fail (env : S3Env) (o : BucketObjectData)
    (resp : HeadObjectOutput) (etag kms : String) (err : GoError)
    (hh : env.headObject o.bucket o.key = .ok resp) (he : resp.ETag = some etag)
    (hr : env.isChinaCloud = false)
    (ht : env.getObjectTagging o.bucket o.key = .error err)
    (hkms : (resp.SSEKMSKeyId = none ∧ kms = o.kms_key_id) ∨
      (∃ k a, resp.SSEKMSKeyId = some k ∧
        env.describeKey "alias/aws/s3" = .ok ⟨some ⟨some a⟩⟩ ∧
        kms = if k = a then o.kms_key_id else k)) :
    (resourceAwsS3BucketObjectRead env o).result = .fail (.gettingTags o.bucket o.key err) ∧
    (resourceAwsS3BucketObjectRead env o).d =
      { mirrorMetadata o resp with
        kms_key_id := kms
        etag := stringsTrim etag '"'
        storage_class := resp.StorageClass.getD "STANDARD" } := by
  rcases hkms with ⟨hk, hkms⟩ | ⟨k, a, hk, hd, hkms⟩
  · subst hkms
    have hrun := readAfterKms_tags_fail env (mirrorMetadata o resp) resp
      [Call.headObject o.bucket o.key] etag err he hr ht
    unfold mirrorMetadata at hrun
    simp only [resourceAwsS3BucketObjectRead, hh, hk, hrun]
    constructor <;> first | rfl | trivial
  · subst hkms
    by_cases hka : k = a
    · have hrun := readAfterKms_tags_fail env (mirrorMetadata o resp) resp
        [Call.headObject o.bucket o.key, Call.describeKey "alias/aws/s3"] etag err he hr ht
      unfold mirrorMetadata at hrun
      simp only [resourceAwsS3BucketObjectRead, hh, hk, hd, Option.bind, hka, ne_eq,
        not_true_eq_false, if_false, if_true, hrun]
      constructor <;> first | rfl | trivial
    · have hrun := readAfterKms_tags_fail env
        { mirrorMetadata o resp with kms_key_id := k } resp
        [Call.headObject o.bucket o.key, Call.describeKey "alias/aws/s3"] etag err he hr ht
      unfold mirrorMetadata at hrun
      simp only [resourceAwsS3BucketObjectRead, hh, hk, hd, Option.bind, hka, ne_eq,
        not_false_eq_true, if_false, if_true, hrun]
      constructor <;> first | rfl | trivial

/-- C11 (amended): the local state after an operation that ends with an error;
nothing is rolled back. The state equals the state before the operation for every
failure of delete (either adapter), every failure of the accepter read, every failure
of the accepter create other than one of its follow-up read (listing, not-found,
timeout, accept), every failure of put other than one of its follow-up read (body
resolution, tags, upload), and a metadata-fetch failure of the object read. State
written before the failing call is kept: an accepter create whose follow-up read
fails has the identity `detector_id:master_id`; an object read whose metadata fetch
succeeded and whose default-key lookup fails holds exactly the eight fields mirrored
from the metadata response, and one whose tag fetch fails holds those, the
`kms_key_id` of the key rule, the etag and the storage class, with identity, bucket,
key, content sources, acl and tags as before; a put whose follow-up read fails is in
the state that read reached from the recorded upload response, with the identity set
to the key. -/
theorem C11_state_after_failure (gd : GuardDutyEnv) (a : InviteAccepterData) (s3 : S3Env)
    (o : BucketObjectData) (e : Failure) :
    (resourceAwsGuardDutyInviteAccepterDelete gd a).d = a ∧
    (resourceAwsS3BucketObjectDelete s3 o).d = o ∧
    ((resourceAwsGuardDutyInviteAccepterRead gd a).result = .fail e →
      (resourceAwsGuardDutyInviteAccepterRead gd a).d = a) ∧
    ((resourceAwsGuardDutyInviteAccepterCreate gd a).result = .fail e →
      ((resourceAwsGuardDutyInviteAccepterCreate gd a).d = a ∨
        (∃ inv, gd.acceptInvitation a.detector_id inv a.master_id = none ∧
          (resourceAwsGuardDutyInviteAccepterCreate gd a).d =
            { a with id := inviteAccepterID a.detector_id a.master_id })) ∧
      (((∃ err, e = .listing err) ∨ (∃ x y, e = .notFound x y) ∨ e = .timeout ∨
          (∃ inv err, e = .accepting inv err)) →
        (resourceAwsGuardDutyInviteAccepterCreate gd a).d = a) ∧
      (isAccepterReadFailure e = false →
        (resourceAwsGuardDutyInviteAccepterCreate gd a).d = a) ∧
      (isAccepterReadFailure e = true →
        (resourceAwsGuardDutyInviteAccepterCreate gd a).d =
          { a with id := inviteAccepterID a.detector_id a.master_id })) ∧
    ((resourceAwsS3BucketObjectRead s3 o).result = .fail e →
      (∀ err, s3.headObject o.bucket o.key = .error err →
        (resourceAwsS3BucketObjectRead s3 o).d = o) ∧
      (∀ resp, s3.headObject o.bucket o.key = .ok resp →
        (resourceAwsS3BucketObjectRead s3 o).d =
          { mirrorMetadata o resp with
            kms_key_id := (resourceAwsS3BucketObjectRead s3 o).d.kms_key_id
            etag := (resourceAwsS3BucketObjectRead s3 o).d.etag
            storage_class := (resourceAwsS3BucketObjectRead s3 o).d.storage_class })) ∧
    (∀ resp k err, s3.headObject o.bucket o.key = .ok resp → resp.SSEKMSKeyId = some k →
      s3.describeKey "alias/aws/s3" = .error err →
      resourceAwsS3BucketObjectRead s3 o =
        ⟨mirrorMetadata o resp,
          [Call.headObject o.bucket o.key, Call.describeKey "alias/aws/s3"],
          .fail (.describingKey err)⟩) ∧
    (∀ resp etag kms err, s3.headObject o.bucket o.key = .ok resp → resp.ETag = some etag →
      s3.isChinaCloud = false → s3.getObjectTagging o.bucket o.key = .error err →
      ((resp.SSEKMSKeyId = none ∧ kms = o.kms_key_id) ∨
        (∃ k arn, resp.SSEKMSKeyId = some k ∧
          s3.describeKey "alias/aws/s3" = .ok ⟨some ⟨some arn⟩⟩ ∧
          kms = if k = arn then o.kms_key_id else k)) →
      (resourceAwsS3BucketObjectRead s3 o).result = .fail (.gettingTags o.bucket o.key err) ∧
      (resourceAwsS3BucketObjectRead s3 o).d =
        { mirrorMetadata o resp with
          kms_key_id := kms
          etag := stringsTrim etag '"'
          storage_class := resp.StorageClass.getD "STANDARD" }) ∧
    ((resourceAwsS3BucketObjectPut s3 o).result = .fail e →
      ((resourceAwsS3BucketObjectPut s3 o).d = o ∨
        (∃ body resp etag,
          putBody s3 o = .ok body ∧
          s3.putObject (putInput s3 o body) = .ok resp ∧ resp.ETag = some etag ∧
          (resourceAwsS3BucketObjectRead s3 (recordUpload o etag resp)).result = .fail e ∧
          (resourceAwsS3BucketObjectPut s3 o).d =
            (resourceAwsS3BucketObjectRead s3 (recordUpload o etag resp)).d ∧
          (resourceAwsS3BucketObjectPut s3 o).d.id = o.key)) ∧
      ((∃ b err, e = .putting b err) → (resourceAwsS3BucketObjectPut s3 o).d = o) ∧
      (isObjectReadFailure e = false → (resourceAwsS3BucketObjectPut s3 o).d = o) ∧
      (isObjectReadFailure e = true →
        ∃ body resp etag,
          putBody s3 o = .ok body ∧
          s3.putObject (putInput s3 o body) = .ok resp ∧ resp.ETag = some etag ∧
          (resourceAwsS3BucketObjectRead s3 (recordUpload o etag resp)).result = .fail e ∧
          (resourceAwsS3BucketObjectPut s3 o).d =
            (resourceAwsS3BucketObjectRead s3 (recordUpload o etag resp)).d ∧
          (resourceAwsS3BucketObjectPut s3 o).d.id = o.key ∧
          (∀ err, s3.headObject o.bucket o.key = .error err →
            (resourceAwsS3BucketObjectPut s3 o).d = recordUpload o etag resp) ∧
          (∀ h, s3.headObject o.bucket o.key = .ok h →
            (resourceAwsS3BucketObjectPut s3 o).d =
              { mirrorMetadata (recordUpload o etag resp) h with
                kms_key_id := (resourceAwsS3BucketObjectPut s3 o).d.kms_key_id
                etag := (resourceAwsS3BucketObjectPut s3 o).d.etag
                storage_class := (resourceAwsS3BucketObjectPut s3 o).d.storage_class }))) := by
  have hputread : isObjectReadFailure e = true →
      (resourceAwsS3BucketObjectPut s3 o).result = .fail e →
      ∃ body resp etag,
        putBody s3 o = .ok body ∧
        s3.putObject (putInput s3 o body) = .ok resp ∧ resp.ETag = some etag ∧
        (resourceAwsS3BucketObjectRead s3 (recordUpload o etag resp)).result = .fail e ∧
        (resourceAwsS3BucketObjectPut s3 o).d =
          (resourceAwsS3BucketObjectRead s3 (recordUpload o etag resp)).d ∧
        (resourceAwsS3BucketObjectPut s3 o).d.id = o.key ∧
        (∀ err, s3.headObject o.bucket o.key = .error err →
          (resourceAwsS3BucketObjectPut s3 o).d = recordUpload o etag resp) ∧
        (∀ h, s3.headObject o.bucket o.key = .ok h →
          (resourceAwsS3BucketObjectPut s3 o).d =
            { mirrorMetadata (recordUpload o etag resp) h with
              kms_key_id := (resourceAwsS3BucketObjectPut s3 o).d.kms_key_id
              etag := (resourceAwsS3BucketObjectPut s3 o).d.etag
              storage_class := (resourceAwsS3BucketObjectPut s3 o).d.storage_class }) := by
    intro hkind h
    obtain ⟨body, resp, etag, hb, hp, he, hr, hd⟩ := objectPut_fail_read s3 o e h hkind
    have herr : ∀ err, s3.headObject o.bucket o.key = .error err →
        (resourceAwsS3BucketObjectPut s3 o).d = recordUpload o etag resp := by
      intro err hh
      rw [hd]
      exact objectRead_fail_head_error s3 (recordUpload o etag resp) e err hr hh
    have hok : ∀ h, s3.headObject o.bucket o.key = .ok h →
        (resourceAwsS3BucketObjectPut s3 o).d =
          { mirrorMetadata (recordUpload o etag resp) h with
            kms_key_id := (resourceAwsS3BucketObjectPut s3 o).d.kms_key_id
            etag := (resourceAwsS3BucketObjectPut s3 o).d.etag
            storage_class := (resourceAwsS3BucketObjectPut s3 o).d.storage_class } := by
      intro hresp hh
      rw [hd]
      exact objectRead_fail_head_ok s3 (recordUpload o etag resp) e hresp hr hh
    refine ⟨body, resp, etag, hb, hp, he, hr, hd, ?_, herr, hok⟩
    cases hh : s3.headObject o.bucket o.key with
    | error err => rw [herr err hh]; rfl
    | ok hresp => rw [hok hresp hh]; rfl
  refine ⟨accepterDelete_d gd a, objectDelete_d s3 o, accepterRead_fail gd a e, ?_, ?_,
    ?_, ?_, ?_⟩
  · intro h
    refine ⟨accepterCreate_fail gd a e h, ?_, accepterCreate_fail_own gd a e h,
      accepterCreate_fail_read gd a e h⟩
    intro hkind
    apply accepterCreate_fail_own gd a e h
    rcases hkind with ⟨_, hk⟩ | ⟨_, _, hk⟩ | hk | ⟨_, _, hk⟩ <;> (subst hk; rfl)
  · intro h
    exact ⟨fun err hh => objectRead_fail_head_error s3 o e err h hh,
      fun resp hh => objectRead_fail_head_ok s3 o e resp h hh⟩
  · intro resp k err hh hk hd
    exact objectRead_describeKey_fails s3 o resp k err hh hk hd
  · intro resp etag kms err hh he hr ht hkms
    exact objectRead_tags_fail s3 o resp etag kms err hh he hr ht hkms
  · intro h
    refine ⟨?_, ?_, objectPut_fail_own s3 o e h, fun hkind => hputread hkind h⟩
    · rcases objectPut_fail s3 o e h with hd | ⟨body, resp, etag, hb, hp, he, hr, hd⟩
      · exact Or.inl hd
      · right
        obtain ⟨body2, resp2, etag2, hb2, hp2, he2, hr2, hd2, hid, _, _⟩ :=
          hputread (objectRead_fail_isKind s3 _ e hr) h
        exact ⟨body2, resp2, etag2, hb2, hp2, he2, hr2, hd2, hid⟩
    · rintro ⟨b, err, hk⟩
      apply objectPut_fail_own s3 o e h
      subst hk
      rfl

theorem C11_state_after_failure_witness :
    (resourceAwsGuardDutyInviteAccepterRead acceptedThenFailingGuardDuty
        ⟨"d41:123456789012", "d41", "123456789012"⟩).d
      = ⟨"d41:123456789012", "d41", "123456789012"⟩ ∧
    (resourceAwsGuardDutyInviteAccepterCreate acceptedThenFailingGuardDuty
        ⟨"", "d41", "123456789012"⟩).d
      = { (⟨"", "d41", "123456789012"⟩ : InviteAccepterData) with
          id := inviteAccepterID "d41" "123456789012" } ∧
    (resourceAwsS3BucketObjectRead forbiddenS3 { id := "k", bucket := "b", key := "k" }).d
      = { id := "k", bucket := "b", key := "k" } ∧
    (resourceAwsS3BucketObjectPut uploadRefusedS3
        { bucket := "b", key := "k", content := "hi" }).d
      = { bucket := "b", key := "k", content := "hi" } ∧
    (resourceAwsS3BucketObjectPut uploadedThenForbiddenS3
        { bucket := "b", key := "k", content := "hi" }).d.id = "k" ∧
    resourceAwsS3BucketObjectRead kmsLookupFailsS3 { id := "k", bucket := "b", key := "k" }
      = ⟨{ id := "k", bucket := "b", key := "k", content_type := "text/plain",
           version_id := "v7" },
         [Call.headObject "b" "k", Call.describeKey "alias/aws/s3"],
         .fail (.describingKey (.aws ⟨"AccessDeniedException", "not authorized", some 400⟩))⟩ :=
  ⟨(C11_state_after_failure acceptedThenFailingGuardDuty
      ⟨"d41:123456789012", "d41", "123456789012"⟩ forbiddenS3
      { id := "k", bucket := "b", key := "k" }
      (.readingMaster "d41:123456789012"
        (.aws ⟨"InternalServerErrorException", "internal error", some 500⟩))).2.2.1 rfl,
   ((C11_state_after_failure acceptedThenFailingGuardDuty
      ⟨"", "d41", "123456789012"⟩ forbiddenS3
      { id := "k", bucket := "b", key := "k" }
      (.readingMaster "d41:123456789012"
        (.aws ⟨"InternalServerErrorException", "internal error", some 500⟩))).2.2.2.1
      rfl).2.2.2 rfl,
   ((C11_state_after_failure acceptedThenFailingGuardDuty
      ⟨"d41:123456789012", "d41", "123456789012"⟩ forbiddenS3
      { id := "k", bucket := "b", key := "k" }
      (.remote (.aws ⟨"Forbidden", "Forbidden", some 403⟩))).2.2.2.2.1 rfl).1
      (.aws ⟨"Forbidden", "Forbidden", some 403⟩) rfl,
   ((C11_state_after_failure acceptedThenFailingGuardDuty
      ⟨"d41:123456789012", "d41", "123456789012"⟩ uploadRefusedS3
      { bucket := "b", key := "k", content := "hi" }
      (.putting "b" (.aws ⟨"AccessDenied", "Access Denied", some 403⟩))).2.2.2.2.2.2.2
      rfl).2.2.1 rfl,
   match ((C11_state_after_failure acceptedThenFailingGuardDuty
      ⟨"d41:123456789012", "d41", "123456789012"⟩ uploadedThenForbiddenS3
      { bucket := "b", key := "k", content := "hi" }
      (.remote (.aws ⟨"Forbidden", "Forbidden", some 403⟩))).2.2.2.2.2.2.2
      rfl).2.2.2 rfl with
   | ⟨_, _, _, _, _, _, _, _, hid, _, _⟩ => hid,
   (C11_state_after_failure acceptedThenFailingGuardDuty
      ⟨"d41:123456789012", "d41", "123456789012"⟩ kmsLookupFailsS3
      { id := "k", bucket := "b", key := "k" } .timeout).2.2.2.2.2.1
      { ContentType := some "text/plain", VersionId := some "v7", ETag := some "\"abc\"",
        SSEKMSKeyId := some "arn:aws:kms:us-east-1:111122223333:key/custom" }
      "arn:aws:kms:us-east-1:111122223333:key/custom"
      (.aws ⟨"AccessDeniedException", "not authorized", some 400⟩) rfl rfl rfl⟩

end AwsBackup
